import Mathlib

/-! # Snake: a shallow embedding of the simulation core of `Main.cpp`

The simulation core of the game (`moveSnake`, `handleMovement`, `addSegment`,
`getSnakeLength`, `getSegmentLength`, `handleCollisions`, `checkCollision`,
`checkFoodCollision`, `inBox`, `addFood`, `setBoundsFromSegment`) is translated function
by function.

Modelling conventions.

* `float` is idealised as an exact rational number (`ℚ`): no rounding, no NaN, no
  infinities.  Where the rounding of binary32 decides what the program does (whether
  the last segment is removed, whether a spawn is accepted), the functions concerned
  are embedded a second time with every arithmetic operation rounded (section
  "Rounded arithmetic"), and the property is stated on that embedding.
* `std::pair<float, float>` is `ℚ × ℚ`; `.1` is `first` (the x coordinate) and `.2`
  is `second` (the z coordinate).
* `std::vector<SnakeSegment>` is `List SnakeSegment`.  An index read `v[i]` is
  `v[i]?` inside the `Option` monad: reading out of range (undefined behaviour in
  the program) makes the whole function return `none`.  The program computes the
  index of the last element as `size() - 1` in `std::size_t`; for an empty vector
  that wraps to the largest index, which is out of range, and the truncated
  subtraction on `Nat` gives index `0`, which is out of range for an empty list
  too.
* The global `deltaTime` is passed as the explicit argument `dt`.
* `glfwSetWindowShouldClose (window, true)` is recorded as a Boolean result.
* The two outputs that `addFood` takes from its clock-seeded random generator are
  arguments of `addFood`, and so is the largest output of the generator.
-/

namespace SnakeGame

/-! ## Data model -/

/-- The enumeration `SnakeDirection` of the program. -/
inductive SnakeDirection where
  | MOVING_UP
  | MOVING_DOWN
  | MOVING_LEFT
  | MOVING_RIGHT
  deriving DecidableEq, Repr

open SnakeDirection

/-- A point of the plane, `std::pair<float, float>`: `(x, z)`. -/
abbrev Coord := ℚ × ℚ

/-- The structure `SnakeSegment` of the program. -/
structure SnakeSegment where
  frontCoord : Coord
  backCoord : Coord
  direction : SnakeDirection
  deriving DecidableEq, Repr

/-- The structure `Snake` of the program; `length` is the target length. -/
structure Snake where
  snakeBody : List SnakeSegment
  currentDirection : SnakeDirection
  length : ℚ
  deriving DecidableEq, Repr

/-- Constant `platformPosition.x` of the program. -/
def platformPositionX : ℚ := 0

/-- Constant `platformPosition.z` of the program. -/
def platformPositionZ : ℚ := 0

/-- Constant `platformScale` of the program. -/
def platformScale : ℚ := 5

/-- Constant `snakeMovespeed` of the program. -/
def snakeMovespeed : ℚ := 1

/-- Constant `snakeRadius` of the program. -/
def snakeRadius : ℚ := 1 / 8

/-- The snake built by `main` before the first frame: one segment with front `(0, 0)`,
back `(0.5, 0)`, moving up, and the default target length `1.0`. -/
def initialSnake : Snake :=
  { snakeBody := [{ frontCoord := (0, 0), backCoord := (1 / 2, 0), direction := MOVING_UP }]
    currentDirection := MOVING_UP
    length := 1 }

/-! ## Geometry -/

/-- Function `getSegmentLength` of the program. -/
def getSegmentLength (snakeSegment : SnakeSegment) (inX : Bool) : ℚ :=
  if inX then |snakeSegment.frontCoord.1 - snakeSegment.backCoord.1|
  else |snakeSegment.frontCoord.2 - snakeSegment.backCoord.2|

/-- One iteration of the loop of `getSnakeLength`: the running total after `segment`. -/
def addSegmentLength (totalLength : ℚ) (segment : SnakeSegment) : ℚ :=
  if segment.direction = MOVING_UP ∨ segment.direction = MOVING_DOWN then
    totalLength + getSegmentLength segment true
  else if segment.direction = MOVING_LEFT ∨ segment.direction = MOVING_RIGHT then
    totalLength + getSegmentLength segment false
  else totalLength

/-- Function `getSnakeLength` of the program: the loop over the body, from total `0`. -/
def getSnakeLength (snake : Snake) : ℚ :=
  snake.snakeBody.foldl addSegmentLength 0

/-- Function `inBox` of the program. -/
def inBox (x1 x2 z1 z2 : ℚ) (point : Coord) : Bool :=
  ((decide (x1 < point.1) && decide (point.1 < x2)) &&
    (decide (z1 < point.2) && decide (point.2 < z2)))

/-- Function `setBoundsFromSegment` of the program; the four output parameters are
returned as the tuple `(x1, x2, z1, z2)`. -/
def setBoundsFromSegment (segment : SnakeSegment) : ℚ × ℚ × ℚ × ℚ :=
  match segment.direction with
  | MOVING_UP =>
      (segment.frontCoord.1, segment.backCoord.1,
        segment.frontCoord.2 - snakeRadius, segment.frontCoord.2 + snakeRadius)
  | MOVING_DOWN =>
      (segment.backCoord.1, segment.frontCoord.1,
        segment.frontCoord.2 - snakeRadius, segment.frontCoord.2 + snakeRadius)
  | MOVING_LEFT =>
      (segment.frontCoord.1 - snakeRadius, segment.frontCoord.1 + snakeRadius,
        segment.backCoord.2, segment.frontCoord.2)
  | MOVING_RIGHT =>
      (segment.frontCoord.1 - snakeRadius, segment.frontCoord.1 + snakeRadius,
        segment.frontCoord.2, segment.backCoord.2)

/-! ## Movement -/

/-- The first `switch` of `handleMovement`: the front point of the head segment moves by
`snakeMovespeed * dt` along the head's direction. -/
def moveFront (dt : ℚ) (head : SnakeSegment) : SnakeSegment :=
  match head.direction with
  | MOVING_UP =>
      { head with frontCoord := (head.frontCoord.1 - snakeMovespeed * dt, head.frontCoord.2) }
  | MOVING_DOWN =>
      { head with frontCoord := (head.frontCoord.1 + snakeMovespeed * dt, head.frontCoord.2) }
  | MOVING_LEFT =>
      { head with frontCoord := (head.frontCoord.1, head.frontCoord.2 + snakeMovespeed * dt) }
  | MOVING_RIGHT =>
      { head with frontCoord := (head.frontCoord.1, head.frontCoord.2 - snakeMovespeed * dt) }

/-- The last `switch` of `handleMovement`: the back point of the last segment moves by
`distanceIncrement` along that segment's direction. -/
def moveBackCoord (distanceIncrement : ℚ) (last : SnakeSegment) : SnakeSegment :=
  match last.direction with
  | MOVING_UP =>
      { last with backCoord := (last.backCoord.1 - distanceIncrement, last.backCoord.2) }
  | MOVING_DOWN =>
      { last with backCoord := (last.backCoord.1 + distanceIncrement, last.backCoord.2) }
  | MOVING_LEFT =>
      { last with backCoord := (last.backCoord.1, last.backCoord.2 + distanceIncrement) }
  | MOVING_RIGHT =>
      { last with backCoord := (last.backCoord.1, last.backCoord.2 - distanceIncrement) }

/-- The length of the last segment as `handleMovement` measures it: along x for a segment
moving up or down, along z otherwise. -/
def currentSegmentLength (segment : SnakeSegment) : ℚ :=
  if segment.direction = MOVING_UP ∨ segment.direction = MOVING_DOWN then
    getSegmentLength segment true
  else getSegmentLength segment false

/-- Function `handleMovement` of the program. -/
def handleMovement (dt : ℚ) (snake : Snake) (moveBack : Bool) : Option Snake := do
  let head ← snake.snakeBody[0]?
  let body1 := snake.snakeBody.set 0 (moveFront dt head)
  if moveBack then
    let numSegments := body1.length - 1
    let distanceIncrement := snakeMovespeed * dt
    let tail ← body1[numSegments]?
    let popped := decide (distanceIncrement ≥ currentSegmentLength tail)
    let body2 := if popped then body1.dropLast else body1
    let distanceIncrement2 :=
      if popped then distanceIncrement - currentSegmentLength tail else distanceIncrement
    let numSegments2 := body2.length - 1
    let last ← body2[numSegments2]?
    some { snake with snakeBody := body2.set numSegments2 (moveBackCoord distanceIncrement2 last) }
  else
    some { snake with snakeBody := body1 }

/-- Function `addSegment` of the program.  The outer `switch` is on the head's direction
and the inner one on `currentDirection`.  In the two turning cases the front point of the
old head is changed in place and a new segment is inserted at the beginning of the body;
in the third case `currentDirection` is reset; when the two directions are equal no case
of the inner `switch` matches and nothing happens. -/
def addSegment (snake : Snake) : Option Snake := do
  let head ← snake.snakeBody[0]?
  let headCoord := head.frontCoord
  match head.direction with
  | MOVING_UP =>
      match snake.currentDirection with
      | MOVING_LEFT =>
          some { snake with
            snakeBody :=
              { frontCoord := (headCoord.1 + snakeRadius, headCoord.2 + snakeRadius)
                backCoord := (headCoord.1 + snakeRadius, headCoord.2 - snakeRadius)
                direction := MOVING_LEFT } ::
              snake.snakeBody.set 0 { head with frontCoord := (head.frontCoord.1 + 2 * snakeRadius, head.frontCoord.2) } }
      | MOVING_RIGHT =>
          some { snake with
            snakeBody :=
              { frontCoord := (headCoord.1 + snakeRadius, headCoord.2 - snakeRadius)
                backCoord := (headCoord.1 + snakeRadius, headCoord.2 + snakeRadius)
                direction := MOVING_RIGHT } ::
              snake.snakeBody.set 0 { head with frontCoord := (head.frontCoord.1 + 2 * snakeRadius, head.frontCoord.2) } }
      | MOVING_DOWN => some { snake with currentDirection := head.direction }
      | MOVING_UP => some snake
  | MOVING_DOWN =>
      match snake.currentDirection with
      | MOVING_LEFT =>
          some { snake with
            snakeBody :=
              { frontCoord := (headCoord.1 - snakeRadius, headCoord.2 + snakeRadius)
                backCoord := (headCoord.1 - snakeRadius, headCoord.2 - snakeRadius)
                direction := MOVING_LEFT } ::
              snake.snakeBody.set 0 { head with frontCoord := (head.frontCoord.1 - 2 * snakeRadius, head.frontCoord.2) } }
      | MOVING_RIGHT =>
          some { snake with
            snakeBody :=
              { frontCoord := (headCoord.1 - snakeRadius, headCoord.2 - snakeRadius)
                backCoord := (headCoord.1 - snakeRadius, headCoord.2 + snakeRadius)
                direction := MOVING_RIGHT } ::
              snake.snakeBody.set 0 { head with frontCoord := (head.frontCoord.1 - 2 * snakeRadius, head.frontCoord.2) } }
      | MOVING_UP => some { snake with currentDirection := head.direction }
      | MOVING_DOWN => some snake
  | MOVING_LEFT =>
      match snake.currentDirection with
      | MOVING_UP =>
          some { snake with
            snakeBody :=
              { frontCoord := (headCoord.1 - snakeRadius, headCoord.2 - snakeRadius)
                backCoord := (headCoord.1 + snakeRadius, headCoord.2 - snakeRadius)
                direction := MOVING_UP } ::
              snake.snakeBody.set 0 { head with frontCoord := (head.frontCoord.1, head.frontCoord.2 - 2 * snakeRadius) } }
      | MOVING_DOWN =>
          some { snake with
            snakeBody :=
              { frontCoord := (headCoord.1 + snakeRadius, headCoord.2 - snakeRadius)
                backCoord := (headCoord.1 - snakeRadius, headCoord.2 - snakeRadius)
                direction := MOVING_DOWN } ::
              snake.snakeBody.set 0 { head with frontCoord := (head.frontCoord.1, head.frontCoord.2 - 2 * snakeRadius) } }
      | MOVING_RIGHT => some { snake with currentDirection := head.direction }
      | MOVING_LEFT => some snake
  | MOVING_RIGHT =>
      match snake.currentDirection with
      | MOVING_UP =>
          some { snake with
            snakeBody :=
              { frontCoord := (headCoord.1 - snakeRadius, headCoord.2 + snakeRadius)
                backCoord := (headCoord.1 + snakeRadius, headCoord.2 + snakeRadius)
                direction := MOVING_UP } ::
              snake.snakeBody.set 0 { head with frontCoord := (head.frontCoord.1, head.frontCoord.2 + 2 * snakeRadius) } }
      | MOVING_DOWN =>
          some { snake with
            snakeBody :=
              { frontCoord := (headCoord.1 + snakeRadius, headCoord.2 + snakeRadius)
                backCoord := (headCoord.1 - snakeRadius, headCoord.2 + snakeRadius)
                direction := MOVING_DOWN } ::
              snake.snakeBody.set 0 { head with frontCoord := (head.frontCoord.1, head.frontCoord.2 + 2 * snakeRadius) } }
      | MOVING_LEFT => some { snake with currentDirection := head.direction }
      | MOVING_RIGHT => some snake

/-- Function `moveSnake` of the program. -/
def moveSnake (dt : ℚ) (snake : Snake) : Option Snake := do
  let snakeLength := getSnakeLength snake
  let head ← snake.snakeBody[0]?
  if snake.currentDirection ≠ head.direction then
    let snake1 ← addSegment snake
    handleMovement dt snake1 (!decide (snakeLength < snake1.length))
  else
    handleMovement dt snake (!decide (snakeLength < snake.length))

/-! ## Collisions -/

/-- Function `checkCollision` of the program. -/
def checkCollision (frontSegment segment : SnakeSegment) : Bool :=
  let (x1, x2, z1, z2) := setBoundsFromSegment segment
  if frontSegment.direction = MOVING_DOWN ∨ frontSegment.direction = MOVING_UP then
    let pair1 : Coord := (frontSegment.frontCoord.1, frontSegment.frontCoord.2 + snakeRadius)
    let pair2 : Coord := (frontSegment.frontCoord.1, frontSegment.frontCoord.2 - snakeRadius)
    inBox x1 x2 z1 z2 pair1 || inBox x1 x2 z1 z2 pair2
  else
    let pair1 : Coord := (frontSegment.frontCoord.1 + snakeRadius, frontSegment.frontCoord.2)
    let pair2 : Coord := (frontSegment.frontCoord.1 - snakeRadius, frontSegment.frontCoord.2)
    inBox x1 x2 z1 z2 pair1 || inBox x1 x2 z1 z2 pair2

/-- Function `checkFoodCollision` of the program. -/
def checkFoodCollision (frontSegment : SnakeSegment) (foodCoords : Coord) : Bool :=
  let x1 := foodCoords.1 - snakeRadius
  let x2 := foodCoords.1 + snakeRadius
  let z1 := foodCoords.2 - snakeRadius
  let z2 := foodCoords.2 + snakeRadius
  if frontSegment.direction = MOVING_DOWN ∨ frontSegment.direction = MOVING_UP then
    let pair1 : Coord := (frontSegment.frontCoord.1, frontSegment.frontCoord.2 + snakeRadius)
    let pair2 : Coord := (frontSegment.frontCoord.1, frontSegment.frontCoord.2 - snakeRadius)
    inBox x1 x2 z1 z2 pair1 || inBox x1 x2 z1 z2 pair2
  else
    let pair1 : Coord := (frontSegment.frontCoord.1 + snakeRadius, frontSegment.frontCoord.2)
    let pair2 : Coord := (frontSegment.frontCoord.1 - snakeRadius, frontSegment.frontCoord.2)
    inBox x1 x2 z1 z2 pair1 || inBox x1 x2 z1 z2 pair2

/-- What `handleCollisions` leaves behind: whether it asked the window to close, and the
snake and the food container after the call. -/
structure CollisionOutcome where
  shouldClose : Bool
  snake : Snake
  foodContainer : List Coord
  deriving DecidableEq, Repr

/-- Function `handleCollisions` of the program.  The platform test reads the front point
of `snakeBody[0]`; the self-collision loop runs over the indices from `2`; the food loop
stops at the first food item that collides with the head, which is erased after the
target length has grown by `2 * snakeRadius`. -/
def handleCollisions (snake : Snake) (foodContainer : List Coord) : Option CollisionOutcome := do
  let head ← snake.snakeBody[0]?
  let wallX :=
    decide (head.frontCoord.1 > platformPositionX + platformScale * (1 / 2)) ||
      decide (head.frontCoord.1 < platformPositionX - platformScale * (1 / 2))
  let wallZ :=
    decide (head.frontCoord.2 > platformPositionZ + platformScale * (1 / 2)) ||
      decide (head.frontCoord.2 < platformPositionZ - platformScale * (1 / 2))
  let selfHit := (snake.snakeBody.drop 2).any (fun segment => checkCollision head segment)
  match foodContainer.findIdx? (fun foodCoords => checkFoodCollision head foodCoords) with
  | some i =>
      some { shouldClose := wallX || wallZ || selfHit
             snake := { snake with length := snake.length + 2 * snakeRadius }
             foodContainer := foodContainer.eraseIdx i }
  | none =>
      some { shouldClose := wallX || wallZ || selfHit
             snake := snake
             foodContainer := foodContainer }

/-- The platform test of `handleCollisions`, its first two `if` statements, for the head
segment `head`: whether one of them asks the window to close. -/
def platformCollision (head : SnakeSegment) : Bool :=
  (decide (head.frontCoord.1 > platformPositionX + platformScale * (1 / 2)) ||
      decide (head.frontCoord.1 < platformPositionX - platformScale * (1 / 2))) ||
    (decide (head.frontCoord.2 > platformPositionZ + platformScale * (1 / 2)) ||
      decide (head.frontCoord.2 < platformPositionZ - platformScale * (1 / 2)))

/-- The self-collision loop of `handleCollisions`, which runs `checkCollision` on the head
and the segments of index `2` and above: whether one iteration asks the window to
close. -/
def selfCollision (snakeBody : List SnakeSegment) (head : SnakeSegment) : Bool :=
  (snakeBody.drop 2).any (fun segment => checkCollision head segment)

/-! ## Food -/

/-- The rescaling that `addFood` applies to a raw output `sample` of the random generator,
converted to `float`; `randomMax` stands for `randomGen.max ()`, the largest output of the
generator, which belongs to the standard library and is a parameter here. -/
def scaleSample (randomMax sample : ℚ) : ℚ :=
  (platformScale * (sample / randomMax) - platformScale / 2) *
    ((platformScale - 2 * snakeRadius) / platformScale)

/-- The body of the loop of `addFood` for one body segment: whether one of the four
corners around `(xCoord, yCoord)` passes `inBox` for the bounds of `segment`, in which
case the loop sets `invalidPlacement` and stops. -/
def cornerInSegment (xCoord yCoord : ℚ) (segment : SnakeSegment) : Bool :=
  let (x1, x2, z1, z2) := setBoundsFromSegment segment
  inBox x1 x2 z1 z2 (xCoord + snakeRadius, yCoord + snakeRadius) ||
    inBox x1 x2 z1 z2 (xCoord + snakeRadius, yCoord - snakeRadius) ||
    inBox x1 x2 z1 z2 (xCoord - snakeRadius, yCoord + snakeRadius) ||
    inBox x1 x2 z1 z2 (xCoord - snakeRadius, yCoord - snakeRadius)

/-- Function `addFood` of the program.  The generator is seeded from the clock, so its two
successive outputs are the arguments `sample1` and `sample2`.  The result is the snake
and the food container after the call. -/
def addFood (randomMax sample1 sample2 : ℚ) (snake : Snake) (foodContainer : List Coord) :
    Snake × List Coord :=
  let xCoord := scaleSample randomMax sample1
  let yCoord := scaleSample randomMax sample2
  let invalidPlacement :=
    snake.snakeBody.any (fun segment => cornerInSegment xCoord yCoord segment)
  if !invalidPlacement then (snake, foodContainer ++ [(xCoord, yCoord)])
  else (snake, foodContainer)

/-! ## Frames of the main loop -/

/-- The part of one frame of the main loop that moves the snake: `processInput` stores the
requested direction `input.1` in `currentDirection`, then `moveSnake` runs with
`deltaTime = input.2`. -/
def moveTick (snake : Snake) (input : SnakeDirection × ℚ) : Option Snake :=
  moveSnake input.2 { snake with currentDirection := input.1 }

/-- A sequence of `moveTick`s, the first input first. -/
def runMoves (snake : Snake) : List (SnakeDirection × ℚ) → Option Snake
  | [] => some snake
  | input :: rest => (moveTick snake input).bind (fun snake1 => runMoves snake1 rest)

/-- One frame of the main loop as far as the snake is concerned: `processInput`,
`moveSnake`, then `handleCollisions` against the food `input.2.2` present in this frame. -/
def frameTick (snake : Snake) (input : SnakeDirection × ℚ × List Coord) : Option Snake :=
  (moveSnake input.2.1 { snake with currentDirection := input.1 }).bind
    (fun snake1 => (handleCollisions snake1 input.2.2).map (fun outcome => outcome.snake))

/-- A sequence of `frameTick`s, the first input first. -/
def runFrames (snake : Snake) : List (SnakeDirection × ℚ × List Coord) → Option Snake
  | [] => some snake
  | input :: rest => (frameTick snake input).bind (fun snake1 => runFrames snake1 rest)

/-! ## Notions used to state the properties -/

/-- The reverse of a direction: up and down are reverses of each other, and so are left
and right. -/
def opposite : SnakeDirection → SnakeDirection
  | MOVING_UP => MOVING_DOWN
  | MOVING_DOWN => MOVING_UP
  | MOVING_LEFT => MOVING_RIGHT
  | MOVING_RIGHT => MOVING_LEFT

/-- Two directions are perpendicular when they are neither equal nor reverses of each
other. -/
def perpendicular (a b : SnakeDirection) : Prop :=
  a ≠ b ∧ a ≠ opposite b

instance (a b : SnakeDirection) : Decidable (perpendicular a b) := by
  unfold perpendicular
  infer_instance

/-- The unit vector of a direction in the `(x, z)` plane: up is `-x`, down is `+x`, left is
`+z` and right is `-z`, as in the first `switch` of `handleMovement`. -/
def unitVector : SnakeDirection → ℚ × ℚ
  | MOVING_UP => (-1, 0)
  | MOVING_DOWN => (1, 0)
  | MOVING_LEFT => (0, 1)
  | MOVING_RIGHT => (0, -1)

/-- A segment is forward-oriented when its front is not behind its back along its
direction. -/
def forwardOriented (segment : SnakeSegment) : Prop :=
  match segment.direction with
  | MOVING_UP => segment.frontCoord.1 ≤ segment.backCoord.1
  | MOVING_DOWN => segment.backCoord.1 ≤ segment.frontCoord.1
  | MOVING_LEFT => segment.backCoord.2 ≤ segment.frontCoord.2
  | MOVING_RIGHT => segment.frontCoord.2 ≤ segment.backCoord.2

/-- The joint between a segment `a` and the next segment `b` of the body: the back point of
`a` and the front point of `b` differ by exactly `snakeRadius` on each axis. -/
def jointOffset (a b : SnakeSegment) : Prop :=
  |a.backCoord.1 - b.frontCoord.1| = snakeRadius ∧ |a.backCoord.2 - b.frontCoord.2| = snakeRadius

/-- The segment that a turn from direction `old` to direction `new` puts in front of the
body when the head's front point is `headCoord`, written with unit vectors: its axis lies
`snakeRadius` behind `headCoord` along `old`, and it reaches `snakeRadius` to either side
of `headCoord` along `new`. -/
def turnSegment (old new : SnakeDirection) (headCoord : Coord) : SnakeSegment :=
  { frontCoord :=
      (headCoord.1 - snakeRadius * (unitVector old).1 + snakeRadius * (unitVector new).1,
        headCoord.2 - snakeRadius * (unitVector old).2 + snakeRadius * (unitVector new).2)
    backCoord :=
      (headCoord.1 - snakeRadius * (unitVector old).1 - snakeRadius * (unitVector new).1,
        headCoord.2 - snakeRadius * (unitVector old).2 - snakeRadius * (unitVector new).2)
    direction := new }

/-- The old head after a turn: its front point has moved back by `2 * snakeRadius` along
its own direction. -/
def shortenFront (head : SnakeSegment) : SnakeSegment :=
  { head with
    frontCoord :=
      (head.frontCoord.1 - 2 * snakeRadius * (unitVector head.direction).1,
        head.frontCoord.2 - 2 * snakeRadius * (unitVector head.direction).2) }

/-- The snake one tick after the start when that tick asks to move left with
`deltaTime = 7/8`: the new head has grown to `z = 1` and the old head has been shortened to
length `1/4`. -/
def turnedSnake : Snake :=
  { snakeBody :=
      [{ frontCoord := (1 / 8, 1), backCoord := (1 / 8, -(1 / 8)), direction := MOVING_LEFT },
       { frontCoord := (1 / 4, 0), backCoord := (1 / 2, 0), direction := MOVING_UP }]
    currentDirection := MOVING_LEFT
    length := 1 }

/-- The head of the body is forward-oriented and at least `2 * snakeRadius` long (in
particular the body is not empty). -/
def headLong (body : List SnakeSegment) : Prop :=
  ∃ head rest, body = head :: rest ∧ forwardOriented head ∧
    2 * snakeRadius ≤ currentSegmentLength head

/-- The shape of the body between two ticks that all last `d / snakeMovespeed`: every
segment is forward-oriented, the head is at least `2 * snakeRadius` long, and at least
`2 * snakeRadius + d` long when it is not the only segment, and every segment strictly
between the head and the last segment is at least `d` long. -/
def steadyBody (d : ℚ) (body : List SnakeSegment) : Prop :=
  ∃ head rest, body = head :: rest ∧ forwardOriented head ∧
    2 * snakeRadius ≤ currentSegmentLength head ∧
    (rest ≠ [] → 2 * snakeRadius + d ≤ currentSegmentLength head) ∧
    (∀ segment ∈ rest, forwardOriented segment) ∧
    (∀ segment ∈ rest.dropLast, d ≤ currentSegmentLength segment)

/-- A segment is aligned when its two end points agree on the coordinate across its
direction: `z` for a segment moving up or down, `x` for a segment moving left or right. -/
def alignedSegment (segment : SnakeSegment) : Prop :=
  match segment.direction with
  | MOVING_UP => segment.frontCoord.2 = segment.backCoord.2
  | MOVING_DOWN => segment.frontCoord.2 = segment.backCoord.2
  | MOVING_LEFT => segment.frontCoord.1 = segment.backCoord.1
  | MOVING_RIGHT => segment.frontCoord.1 = segment.backCoord.1

/-- A point lies strictly inside the box `(x1, x2, z1, z2)`. -/
def strictlyInside (box : ℚ × ℚ × ℚ × ℚ) (point : Coord) : Prop :=
  (box.1 < point.1 ∧ point.1 < box.2.1) ∧ (box.2.2.1 < point.2 ∧ point.2 < box.2.2.2)

/-- The two leading corners of the head: its front point moved by `snakeRadius` to either
side on the axis across the head's direction. -/
def leadingCorners (head : SnakeSegment) : Coord × Coord :=
  match head.direction with
  | MOVING_UP =>
      ((head.frontCoord.1, head.frontCoord.2 + snakeRadius),
        (head.frontCoord.1, head.frontCoord.2 - snakeRadius))
  | MOVING_DOWN =>
      ((head.frontCoord.1, head.frontCoord.2 + snakeRadius),
        (head.frontCoord.1, head.frontCoord.2 - snakeRadius))
  | MOVING_LEFT =>
      ((head.frontCoord.1 + snakeRadius, head.frontCoord.2),
        (head.frontCoord.1 - snakeRadius, head.frontCoord.2))
  | MOVING_RIGHT =>
      ((head.frontCoord.1 + snakeRadius, head.frontCoord.2),
        (head.frontCoord.1 - snakeRadius, head.frontCoord.2))

/-- The box `(x1, x2, z1, z2)` of a food item: the square of side `2 * snakeRadius`
centred on it, as `checkFoodCollision` computes it. -/
def foodBox (foodCoords : Coord) : ℚ × ℚ × ℚ × ℚ :=
  (foodCoords.1 - snakeRadius, foodCoords.1 + snakeRadius,
    foodCoords.2 - snakeRadius, foodCoords.2 + snakeRadius)

/-- The largest output of `std::minstd_rand`, the generator that `addFood` uses. -/
def minstdMax : ℚ := 2147483646

/-- The block of `handleMovement` guarded by `moveBack`, as a function of the body `body1`
that the head movement has left and of `distanceIncrement = snakeMovespeed * deltaTime`. -/
def retractTail (distanceIncrement : ℚ) (body1 : List SnakeSegment) :
    Option (List SnakeSegment) := do
  let numSegments := body1.length - 1
  let tail ← body1[numSegments]?
  let popped := decide (distanceIncrement ≥ currentSegmentLength tail)
  let body2 := if popped then body1.dropLast else body1
  let distanceIncrement2 :=
    if popped then distanceIncrement - currentSegmentLength tail else distanceIncrement
  let numSegments2 := body2.length - 1
  let last ← body2[numSegments2]?
  some (body2.set numSegments2 (moveBackCoord distanceIncrement2 last))

/-- The traversed length of a body as a sum over its segments. -/
def bodyLength (body : List SnakeSegment) : ℚ :=
  (body.map currentSegmentLength).sum

/-! ## Rounded arithmetic

The definitions above compute with exact rationals.  The program computes with the
`float` type, binary32: every product, sum and difference is rounded to the nearest
binary32 number.  The definitions below are the movement functions once more, with the
rounding `rnd` applied wherever the program performs an arithmetic operation, and
`roundBinary32` is that rounding.  Comparisons and `std::abs` are exact in binary32. -/

/-- The integer nearest to `y`, a tie going to the even one. -/
def roundTiesEven (y : ℚ) : ℤ :=
  let f := ⌊y⌋
  if y - f < 1 / 2 then f
  else if 1 / 2 < y - f then f + 1
  else if f % 2 = 0 then f
  else f + 1

/-- Rounding to the nearest binary32 number, ties to even: 24 significant bits, exponents
from `-126` up (below them the spacing stays `2 ^ (-149)`).  Overflow to infinity, which
happens from `2 ^ 128` on, is not represented. -/
def roundBinary32 (x : ℚ) : ℚ :=
  if x = 0 then 0
  else
    let quantum : ℚ := 2 ^ (max (Int.log 2 |x|) (-126) - 23)
    (roundTiesEven (x / quantum) : ℚ) * quantum

/-- Function `getSegmentLength` of the program in rounded arithmetic. -/
def getSegmentLengthRounded (rnd : ℚ → ℚ) (snakeSegment : SnakeSegment) (inX : Bool) : ℚ :=
  if inX then |rnd (snakeSegment.frontCoord.1 - snakeSegment.backCoord.1)|
  else |rnd (snakeSegment.frontCoord.2 - snakeSegment.backCoord.2)|

/-- One iteration of the loop of `getSnakeLength` in rounded arithmetic. -/
def addSegmentLengthRounded (rnd : ℚ → ℚ) (totalLength : ℚ) (segment : SnakeSegment) : ℚ :=
  if segment.direction = MOVING_UP ∨ segment.direction = MOVING_DOWN then
    rnd (totalLength + getSegmentLengthRounded rnd segment true)
  else if segment.direction = MOVING_LEFT ∨ segment.direction = MOVING_RIGHT then
    rnd (totalLength + getSegmentLengthRounded rnd segment false)
  else totalLength

/-- Function `getSnakeLength` of the program in rounded arithmetic. -/
def getSnakeLengthRounded (rnd : ℚ → ℚ) (snake : Snake) : ℚ :=
  snake.snakeBody.foldl (addSegmentLengthRounded rnd) 0

/-- The first `switch` of `handleMovement` in rounded arithmetic: the product
`snakeMovespeed * deltaTime` is rounded, and so is the sum or difference stored in the
front point. -/
def moveFrontRounded (rnd : ℚ → ℚ) (dt : ℚ) (head : SnakeSegment) : SnakeSegment :=
  match head.direction with
  | MOVING_UP =>
      { head with
        frontCoord := (rnd (head.frontCoord.1 - rnd (snakeMovespeed * dt)), head.frontCoord.2) }
  | MOVING_DOWN =>
      { head with
        frontCoord := (rnd (head.frontCoord.1 + rnd (snakeMovespeed * dt)), head.frontCoord.2) }
  | MOVING_LEFT =>
      { head with
        frontCoord := (head.frontCoord.1, rnd (head.frontCoord.2 + rnd (snakeMovespeed * dt))) }
  | MOVING_RIGHT =>
      { head with
        frontCoord := (head.frontCoord.1, rnd (head.frontCoord.2 - rnd (snakeMovespeed * dt))) }

/-- The last `switch` of `handleMovement` in rounded arithmetic. -/
def moveBackCoordRounded (rnd : ℚ → ℚ) (distanceIncrement : ℚ) (last : SnakeSegment) :
    SnakeSegment :=
  match last.direction with
  | MOVING_UP =>
      { last with backCoord := (rnd (last.backCoord.1 - distanceIncrement), last.backCoord.2) }
  | MOVING_DOWN =>
      { last with backCoord := (rnd (last.backCoord.1 + distanceIncrement), last.backCoord.2) }
  | MOVING_LEFT =>
      { last with backCoord := (last.backCoord.1, rnd (last.backCoord.2 + distanceIncrement)) }
  | MOVING_RIGHT =>
      { last with backCoord := (last.backCoord.1, rnd (last.backCoord.2 - distanceIncrement)) }

/-- The length of the last segment as `handleMovement` measures it, in rounded
arithmetic. -/
def currentSegmentLengthRounded (rnd : ℚ → ℚ) (segment : SnakeSegment) : ℚ :=
  if segment.direction = MOVING_UP ∨ segment.direction = MOVING_DOWN then
    getSegmentLengthRounded rnd segment true
  else getSegmentLengthRounded rnd segment false

/-- Function `handleMovement` of the program in rounded arithmetic. -/
def handleMovementRounded (rnd : ℚ → ℚ) (dt : ℚ) (snake : Snake) (moveBack : Bool) :
    Option Snake := do
  let head ← snake.snakeBody[0]?
  let body1 := snake.snakeBody.set 0 (moveFrontRounded rnd dt head)
  if moveBack then
    let numSegments := body1.length - 1
    let distanceIncrement := rnd (snakeMovespeed * dt)
    let tail ← body1[numSegments]?
    let popped := decide (distanceIncrement ≥ currentSegmentLengthRounded rnd tail)
    let body2 := if popped then body1.dropLast else body1
    let distanceIncrement2 :=
      if popped then rnd (distanceIncrement - currentSegmentLengthRounded rnd tail)
      else distanceIncrement
    let numSegments2 := body2.length - 1
    let last ← body2[numSegments2]?
    some { snake with
      snakeBody := body2.set numSegments2 (moveBackCoordRounded rnd distanceIncrement2 last) }
  else
    some { snake with snakeBody := body1 }

/-- Function `addSegment` of the program in rounded arithmetic: the nested `switch` of
`addSegment`, every sum and difference rounded by `rnd`. -/
def addSegmentRounded (rnd : ℚ → ℚ) (snake : Snake) : Option Snake := do
  let head ← snake.snakeBody[0]?
  let headCoord := head.frontCoord
  match head.direction with
  | MOVING_UP =>
      match snake.currentDirection with
      | MOVING_LEFT =>
          some { snake with
            snakeBody :=
              { frontCoord :=
                  (rnd (headCoord.1 + snakeRadius), rnd (headCoord.2 + snakeRadius))
                backCoord :=
                  (rnd (headCoord.1 + snakeRadius), rnd (headCoord.2 - snakeRadius))
                direction := MOVING_LEFT } ::
              snake.snakeBody.set 0 { head with frontCoord := (rnd (head.frontCoord.1 + rnd (2 * snakeRadius)), head.frontCoord.2) } }
      | MOVING_RIGHT =>
          some { snake with
            snakeBody :=
              { frontCoord :=
                  (rnd (headCoord.1 + snakeRadius), rnd (headCoord.2 - snakeRadius))
                backCoord :=
                  (rnd (headCoord.1 + snakeRadius), rnd (headCoord.2 + snakeRadius))
                direction := MOVING_RIGHT } ::
              snake.snakeBody.set 0 { head with frontCoord := (rnd (head.frontCoord.1 + rnd (2 * snakeRadius)), head.frontCoord.2) } }
      | MOVING_DOWN => some { snake with currentDirection := head.direction }
      | MOVING_UP => some snake
  | MOVING_DOWN =>
      match snake.currentDirection with
      | MOVING_LEFT =>
          some { snake with
            snakeBody :=
              { frontCoord :=
                  (rnd (headCoord.1 - snakeRadius), rnd (headCoord.2 + snakeRadius))
                backCoord :=
                  (rnd (headCoord.1 - snakeRadius), rnd (headCoord.2 - snakeRadius))
                direction := MOVING_LEFT } ::
              snake.snakeBody.set 0 { head with frontCoord := (rnd (head.frontCoord.1 - rnd (2 * snakeRadius)), head.frontCoord.2) } }
      | MOVING_RIGHT =>
          some { snake with
            snakeBody :=
              { frontCoord :=
                  (rnd (headCoord.1 - snakeRadius), rnd (headCoord.2 - snakeRadius))
                backCoord :=
                  (rnd (headCoord.1 - snakeRadius), rnd (headCoord.2 + snakeRadius))
                direction := MOVING_RIGHT } ::
              snake.snakeBody.set 0 { head with frontCoord := (rnd (head.frontCoord.1 - rnd (2 * snakeRadius)), head.frontCoord.2) } }
      | MOVING_UP => some { snake with currentDirection := head.direction }
      | MOVING_DOWN => some snake
  | MOVING_LEFT =>
      match snake.currentDirection with
      | MOVING_UP =>
          some { snake with
            snakeBody :=
              { frontCoord :=
                  (rnd (headCoord.1 - snakeRadius), rnd (headCoord.2 - snakeRadius))
                backCoord :=
                  (rnd (headCoord.1 + snakeRadius), rnd (headCoord.2 - snakeRadius))
                direction := MOVING_UP } ::
              snake.snakeBody.set 0 { head with frontCoord := (head.frontCoord.1, rnd (head.frontCoord.2 - rnd (2 * snakeRadius))) } }
      | MOVING_DOWN =>
          some { snake with
            snakeBody :=
              { frontCoord :=
                  (rnd (headCoord.1 + snakeRadius), rnd (headCoord.2 - snakeRadius))
                backCoord :=
                  (rnd (headCoord.1 - snakeRadius), rnd (headCoord.2 - snakeRadius))
                direction := MOVING_DOWN } ::
              snake.snakeBody.set 0 { head with frontCoord := (head.frontCoord.1, rnd (head.frontCoord.2 - rnd (2 * snakeRadius))) } }
      | MOVING_RIGHT => some { snake with currentDirection := head.direction }
      | MOVING_LEFT => some snake
  | MOVING_RIGHT =>
      match snake.currentDirection with
      | MOVING_UP =>
          some { snake with
            snakeBody :=
              { frontCoord :=
                  (rnd (headCoord.1 - snakeRadius), rnd (headCoord.2 + snakeRadius))
                backCoord :=
                  (rnd (headCoord.1 + snakeRadius), rnd (headCoord.2 + snakeRadius))
                direction := MOVING_UP } ::
              snake.snakeBody.set 0 { head with frontCoord := (head.frontCoord.1, rnd (head.frontCoord.2 + rnd (2 * snakeRadius))) } }
      | MOVING_DOWN =>
          some { snake with
            snakeBody :=
              { frontCoord :=
                  (rnd (headCoord.1 + snakeRadius), rnd (headCoord.2 + snakeRadius))
                backCoord :=
                  (rnd (headCoord.1 - snakeRadius), rnd (headCoord.2 + snakeRadius))
                direction := MOVING_DOWN } ::
              snake.snakeBody.set 0 { head with frontCoord := (head.frontCoord.1, rnd (head.frontCoord.2 + rnd (2 * snakeRadius))) } }
      | MOVING_LEFT => some { snake with currentDirection := head.direction }
      | MOVING_RIGHT => some snake

/-- Function `moveSnake` of the program in rounded arithmetic. -/
def moveSnakeRounded (rnd : ℚ → ℚ) (dt : ℚ) (snake : Snake) : Option Snake := do
  let snakeLength := getSnakeLengthRounded rnd snake
  let head ← snake.snakeBody[0]?
  if snake.currentDirection ≠ head.direction then
    let snake1 ← addSegmentRounded rnd snake
    handleMovementRounded rnd dt snake1 (!decide (snakeLength < snake1.length))
  else
    handleMovementRounded rnd dt snake (!decide (snakeLength < snake.length))

/-- The block of `handleMovement` guarded by `moveBack` in rounded arithmetic, as a
function of the body `body1` that the head movement has left. -/
def retractTailRounded (rnd : ℚ → ℚ) (dt : ℚ) (body1 : List SnakeSegment) :
    Option (List SnakeSegment) := do
  let numSegments := body1.length - 1
  let distanceIncrement := rnd (snakeMovespeed * dt)
  let tail ← body1[numSegments]?
  let popped := decide (distanceIncrement ≥ currentSegmentLengthRounded rnd tail)
  let body2 := if popped then body1.dropLast else body1
  let distanceIncrement2 :=
    if popped then rnd (distanceIncrement - currentSegmentLengthRounded rnd tail)
    else distanceIncrement
  let numSegments2 := body2.length - 1
  let last ← body2[numSegments2]?
  some (body2.set numSegments2 (moveBackCoordRounded rnd distanceIncrement2 last))

/-- Function `setBoundsFromSegment` of the program in rounded arithmetic. -/
def setBoundsFromSegmentRounded (rnd : ℚ → ℚ) (segment : SnakeSegment) : ℚ × ℚ × ℚ × ℚ :=
  match segment.direction with
  | MOVING_UP =>
      (segment.frontCoord.1, segment.backCoord.1,
        rnd (segment.frontCoord.2 - snakeRadius), rnd (segment.frontCoord.2 + snakeRadius))
  | MOVING_DOWN =>
      (segment.backCoord.1, segment.frontCoord.1,
        rnd (segment.frontCoord.2 - snakeRadius), rnd (segment.frontCoord.2 + snakeRadius))
  | MOVING_LEFT =>
      (rnd (segment.frontCoord.1 - snakeRadius), rnd (segment.frontCoord.1 + snakeRadius),
        segment.backCoord.2, segment.frontCoord.2)
  | MOVING_RIGHT =>
      (rnd (segment.frontCoord.1 - snakeRadius), rnd (segment.frontCoord.1 + snakeRadius),
        segment.frontCoord.2, segment.backCoord.2)

/-- The rescaling that `addFood` applies to a sample in rounded arithmetic: the quotient
`sample / randomGen.max ()`, its product with `platformScale`, the quotient
`platformScale / 2`, the difference of the two, the product `2 * snakeRadius`, the
difference `platformScale - 2 * snakeRadius`, its quotient by `platformScale` and the final
product are rounded one by one.  Here `sample` and `randomMax` are the values after their
conversion to `float`. -/
def scaleSampleRounded (rnd : ℚ → ℚ) (randomMax sample : ℚ) : ℚ :=
  rnd (rnd (rnd (platformScale * rnd (sample / randomMax)) - rnd (platformScale / 2)) *
    rnd (rnd (platformScale - rnd (2 * snakeRadius)) / platformScale))

/-- The body of the loop of `addFood` for one body segment in rounded arithmetic: the
bounds and the four corners are rounded sums and differences. -/
def cornerInSegmentRounded (rnd : ℚ → ℚ) (xCoord yCoord : ℚ) (segment : SnakeSegment) :
    Bool :=
  let (x1, x2, z1, z2) := setBoundsFromSegmentRounded rnd segment
  inBox x1 x2 z1 z2 (rnd (xCoord + snakeRadius), rnd (yCoord + snakeRadius)) ||
    inBox x1 x2 z1 z2 (rnd (xCoord + snakeRadius), rnd (yCoord - snakeRadius)) ||
    inBox x1 x2 z1 z2 (rnd (xCoord - snakeRadius), rnd (yCoord + snakeRadius)) ||
    inBox x1 x2 z1 z2 (rnd (xCoord - snakeRadius), rnd (yCoord - snakeRadius))

/-- Function `addFood` of the program in rounded arithmetic; `sample1`, `sample2` and
`randomMax` are the two outputs of the generator and its largest output after their
conversion to `float`. -/
def addFoodRounded (rnd : ℚ → ℚ) (randomMax sample1 sample2 : ℚ) (snake : Snake)
    (foodContainer : List Coord) : Snake × List Coord :=
  let xCoord := scaleSampleRounded rnd randomMax sample1
  let yCoord := scaleSampleRounded rnd randomMax sample2
  let invalidPlacement :=
    snake.snakeBody.any (fun segment => cornerInSegmentRounded rnd xCoord yCoord segment)
  if !invalidPlacement then (snake, foodContainer ++ [(xCoord, yCoord)])
  else (snake, foodContainer)

theorem snakeRadius_pos : 0 < snakeRadius := by
  norm_num [snakeRadius]

theorem currentSegmentLength_nonneg (segment : SnakeSegment) :
    0 ≤ currentSegmentLength segment := by
  unfold currentSegmentLength getSegmentLength
  split <;> simp

theorem addSegmentLength_eq (totalLength : ℚ) (segment : SnakeSegment) :
    addSegmentLength totalLength segment = totalLength + currentSegmentLength segment := by
  unfold addSegmentLength currentSegmentLength
  cases h : segment.direction <;> simp

theorem foldl_addSegmentLength (body : List SnakeSegment) (totalLength : ℚ) :
    body.foldl addSegmentLength totalLength = totalLength + bodyLength body := by
  induction body generalizing totalLength with
  | nil => simp [bodyLength]
  | cons segment rest ih =>
      simp only [List.foldl_cons, ih, addSegmentLength_eq, bodyLength, List.map_cons, List.sum_cons]
      ring

theorem getSnakeLength_eq (snake : Snake) :
    getSnakeLength snake = bodyLength snake.snakeBody := by
  simp [getSnakeLength, foldl_addSegmentLength]

theorem bodyLength_nil : bodyLength [] = 0 := rfl

theorem bodyLength_cons (segment : SnakeSegment) (rest : List SnakeSegment) :
    bodyLength (segment :: rest) = currentSegmentLength segment + bodyLength rest := by
  simp [bodyLength]

theorem bodyLength_append (pre post : List SnakeSegment) :
    bodyLength (pre ++ post) = bodyLength pre + bodyLength post := by
  simp [bodyLength]

theorem bodyLength_nonneg (body : List SnakeSegment) : 0 ≤ bodyLength body := by
  induction body with
  | nil => simp [bodyLength]
  | cons segment rest ih =>
      rw [bodyLength_cons]
      exact add_nonneg (currentSegmentLength_nonneg segment) ih

/-! ### The two halves of `handleMovement` -/

theorem handleMovement_cons (dt : ℚ) (snake : Snake) (moveBack : Bool)
    (head : SnakeSegment) (rest : List SnakeSegment) (hbody : snake.snakeBody = head :: rest) :
    handleMovement dt snake moveBack =
      if moveBack then
        (retractTail (snakeMovespeed * dt) (moveFront dt head :: rest)).map
          (fun body => { snake with snakeBody := body })
      else some { snake with snakeBody := moveFront dt head :: rest } := by
  unfold handleMovement retractTail
  cases moveBack <;> simp [hbody]

theorem retractTail_keep (d : ℚ) (pre : List SnakeSegment) (tail : SnakeSegment)
    (h : d < currentSegmentLength tail) :
    retractTail d (pre ++ [tail]) = some (pre ++ [moveBackCoord d tail]) := by
  have hn : ¬ currentSegmentLength tail ≤ d := not_le.mpr h
  simp [retractTail, hn]

theorem retractTail_pop_snoc (d : ℚ) (pre : List SnakeSegment) (tail : SnakeSegment)
    (h : currentSegmentLength tail ≤ d) :
    retractTail d (pre ++ [tail]) =
      (pre[pre.length - 1]?).bind (fun last =>
        some (pre.set (pre.length - 1) (moveBackCoord (d - currentSegmentLength tail) last))) := by
  simp [retractTail, h]

theorem retractTail_pop (d : ℚ) (pre : List SnakeSegment) (last tail : SnakeSegment)
    (h : currentSegmentLength tail ≤ d) :
    retractTail d (pre ++ [last, tail]) =
      some (pre ++ [moveBackCoord (d - currentSegmentLength tail) last]) := by
  have e : pre ++ [last, tail] = (pre ++ [last]) ++ [tail] := by simp
  rw [e, retractTail_pop_snoc d (pre ++ [last]) tail h]
  simp

theorem retractTail_pop_single (d : ℚ) (tail : SnakeSegment)
    (h : currentSegmentLength tail ≤ d) : retractTail d [tail] = none := by
  simp [retractTail, h]

theorem retractTail_nil (d : ℚ) : retractTail d [] = none := by
  simp [retractTail]

/-! ### The three outcomes of `addSegment` -/

theorem addSegment_same (snake : Snake) (head : SnakeSegment) (rest : List SnakeSegment)
    (hbody : snake.snakeBody = head :: rest) (hdir : snake.currentDirection = head.direction) :
    addSegment snake = some snake := by
  obtain ⟨body, cur, len⟩ := snake
  obtain ⟨front, back, dir⟩ := head
  simp only at hbody hdir
  subst hbody hdir
  cases cur <;> simp [addSegment]

theorem addSegment_opposite (snake : Snake) (head : SnakeSegment) (rest : List SnakeSegment)
    (hbody : snake.snakeBody = head :: rest)
    (hdir : snake.currentDirection = opposite head.direction) :
    addSegment snake = some { snake with currentDirection := head.direction } := by
  obtain ⟨body, cur, len⟩ := snake
  obtain ⟨front, back, dir⟩ := head
  simp only at hbody hdir
  subst hbody hdir
  cases dir <;> simp [addSegment, opposite]

theorem addSegment_perpendicular (snake : Snake) (head : SnakeSegment)
    (rest : List SnakeSegment) (hbody : snake.snakeBody = head :: rest)
    (hdir : perpendicular snake.currentDirection head.direction) :
    addSegment snake =
      some { snake with
        snakeBody :=
          turnSegment head.direction snake.currentDirection head.frontCoord ::
            shortenFront head :: rest } := by
  obtain ⟨body, cur, len⟩ := snake
  obtain ⟨front, back, dir⟩ := head
  simp only at hbody hdir
  subst hbody
  cases dir <;> cases cur <;> simp [perpendicular, opposite] at hdir <;>
    simp [addSegment, turnSegment, shortenFront, unitVector] <;> ring_nf

theorem direction_trichotomy (a b : SnakeDirection) :
    a = b ∨ a = opposite b ∨ perpendicular a b := by
  cases a <;> cases b <;> simp [opposite, perpendicular]

theorem addSegment_nil (snake : Snake) (hbody : snake.snakeBody = []) :
    addSegment snake = none := by
  simp [addSegment, hbody]

theorem addSegment_cases (snake : Snake) (head : SnakeSegment) (rest : List SnakeSegment)
    (hbody : snake.snakeBody = head :: rest) :
    ∃ snake0, addSegment snake = some snake0 ∧ snake0.length = snake.length ∧
      (snake0.snakeBody = head :: rest ∨
        (perpendicular snake.currentDirection head.direction ∧
          snake0.snakeBody =
            turnSegment head.direction snake.currentDirection head.frontCoord ::
              shortenFront head :: rest)) := by
  rcases direction_trichotomy snake.currentDirection head.direction with h | h | h
  · exact ⟨_, addSegment_same snake head rest hbody h, rfl, Or.inl hbody⟩
  · exact ⟨_, addSegment_opposite snake head rest hbody h, rfl, Or.inl hbody⟩
  · exact ⟨_, addSegment_perpendicular snake head rest hbody h, rfl, Or.inr ⟨h, rfl⟩⟩

theorem moveSnake_eq (dt : ℚ) (snake : Snake) :
    moveSnake dt snake =
      (addSegment snake).bind (fun snake1 =>
        handleMovement dt snake1 (!decide (getSnakeLength snake < snake.length))) := by
  cases hbody : snake.snakeBody with
  | nil => simp [moveSnake, addSegment_nil snake hbody, hbody]
  | cons head rest =>
      by_cases hdir : snake.currentDirection = head.direction
      · simp [moveSnake, hbody, hdir, addSegment_same snake head rest hbody hdir]
      · obtain ⟨snake0, h0, hlen, -⟩ := addSegment_cases snake head rest hbody
        simp [moveSnake, hbody, hdir, h0, hlen]

theorem retractTail_cases (d : ℚ) (body1 : List SnakeSegment) (hne : body1 ≠ []) :
    (∃ pre tail, body1 = pre ++ [tail] ∧ d < currentSegmentLength tail ∧
        retractTail d body1 = some (pre ++ [moveBackCoord d tail])) ∨
      (∃ pre last tail, body1 = pre ++ [last, tail] ∧ currentSegmentLength tail ≤ d ∧
        retractTail d body1 =
          some (pre ++ [moveBackCoord (d - currentSegmentLength tail) last])) ∨
      (∃ tail, body1 = [tail] ∧ currentSegmentLength tail ≤ d ∧ retractTail d body1 = none) := by
  rcases List.eq_nil_or_concat body1 with h | ⟨front, tail, h⟩
  · exact absurd h hne
  · rw [List.concat_eq_append] at h
    subst h
    by_cases hd : d < currentSegmentLength tail
    · exact Or.inl ⟨front, tail, rfl, hd, retractTail_keep d front tail hd⟩
    · have hle : currentSegmentLength tail ≤ d := not_lt.mp hd
      rcases List.eq_nil_or_concat front with h | ⟨pre, last, h⟩
      · subst h
        exact Or.inr (Or.inr ⟨tail, rfl, hle, retractTail_pop_single d tail hle⟩)
      · rw [List.concat_eq_append] at h
        subst h
        refine Or.inr (Or.inl ⟨pre, last, tail, by simp, hle, ?_⟩)
        have e : pre ++ [last] ++ [tail] = pre ++ [last, tail] := by simp
        rw [e]
        exact retractTail_pop d pre last tail hle

/-! ### How the four elementary changes act on one segment -/

theorem turnSegment_length (old new : SnakeDirection) (headCoord : Coord) :
    forwardOriented (turnSegment old new headCoord) ∧
      currentSegmentLength (turnSegment old new headCoord) = 2 * snakeRadius := by
  have hr := snakeRadius_pos
  cases new <;>
    simp [turnSegment, forwardOriented, currentSegmentLength, getSegmentLength, unitVector]
  · rw [abs_of_nonpos (by linarith)]; constructor <;> linarith
  · rw [abs_of_nonneg (by linarith)]; constructor <;> linarith
  · rw [abs_of_nonneg (by linarith)]; constructor <;> linarith
  · rw [abs_of_nonpos (by linarith)]; constructor <;> linarith

theorem forwardOriented_length (segment : SnakeSegment) (h : forwardOriented segment) :
    currentSegmentLength segment =
      match segment.direction with
      | MOVING_UP => segment.backCoord.1 - segment.frontCoord.1
      | MOVING_DOWN => segment.frontCoord.1 - segment.backCoord.1
      | MOVING_LEFT => segment.frontCoord.2 - segment.backCoord.2
      | MOVING_RIGHT => segment.backCoord.2 - segment.frontCoord.2 := by
  obtain ⟨front, back, dir⟩ := segment
  cases dir <;> simp [forwardOriented] at h <;>
    simp [currentSegmentLength, getSegmentLength]
  · rw [abs_of_nonpos (by linarith)]; ring
  · exact h
  · exact h
  · rw [abs_of_nonpos (by linarith)]; ring

theorem shortenFront_length (head : SnakeSegment) (hfwd : forwardOriented head)
    (hlen : 2 * snakeRadius ≤ currentSegmentLength head) :
    forwardOriented (shortenFront head) ∧
      currentSegmentLength (shortenFront head) = currentSegmentLength head - 2 * snakeRadius := by
  have hl := forwardOriented_length head hfwd
  rw [hl] at hlen ⊢
  obtain ⟨front, back, dir⟩ := head
  cases dir <;> simp [forwardOriented] at hfwd <;> simp at hlen <;>
    simp [shortenFront, forwardOriented, currentSegmentLength, getSegmentLength, unitVector]
  · rw [abs_of_nonpos (by linarith)]; constructor <;> linarith
  · rw [abs_of_nonneg (by linarith)]; constructor <;> linarith
  · rw [abs_of_nonneg (by linarith)]; constructor <;> linarith
  · rw [abs_of_nonpos (by linarith)]; constructor <;> linarith

theorem moveFront_length (dt : ℚ) (head : SnakeSegment) (hfwd : forwardOriented head)
    (hdt : 0 ≤ dt) :
    forwardOriented (moveFront dt head) ∧
      currentSegmentLength (moveFront dt head) =
        currentSegmentLength head + snakeMovespeed * dt := by
  have hl := forwardOriented_length head hfwd
  rw [hl]
  obtain ⟨front, back, dir⟩ := head
  cases dir <;> simp [forwardOriented] at hfwd <;>
    simp [moveFront, forwardOriented, currentSegmentLength, getSegmentLength, snakeMovespeed]
  · rw [abs_of_nonpos (by linarith)]; constructor <;> linarith
  · rw [abs_of_nonneg (by linarith)]; constructor <;> linarith
  · rw [abs_of_nonneg (by linarith)]; constructor <;> linarith
  · rw [abs_of_nonpos (by linarith)]; constructor <;> linarith

theorem moveBackCoord_length (e : ℚ) (last : SnakeSegment) (hfwd : forwardOriented last)
    (he : e ≤ currentSegmentLength last) :
    forwardOriented (moveBackCoord e last) ∧
      currentSegmentLength (moveBackCoord e last) = currentSegmentLength last - e := by
  have hl := forwardOriented_length last hfwd
  rw [hl] at he ⊢
  obtain ⟨front, back, dir⟩ := last
  cases dir <;> simp [forwardOriented] at hfwd <;> simp at he <;>
    simp [moveBackCoord, forwardOriented, currentSegmentLength, getSegmentLength]
  · rw [abs_of_nonpos (by linarith)]; constructor <;> linarith
  · rw [abs_of_nonneg (by linarith)]; constructor <;> linarith
  · rw [abs_of_nonneg (by linarith)]; constructor <;> linarith
  · rw [abs_of_nonpos (by linarith)]; constructor <;> linarith

/-! ### Growth without a turn -/

theorem handleMovement_snoc (dt : ℚ) (snake0 : Snake) (head0 : SnakeSegment)
    (mid0 : List SnakeSegment) (last : SnakeSegment)
    (hbody : snake0.snakeBody = head0 :: (mid0 ++ [last])) :
    ∃ pre p, moveFront dt head0 :: mid0 = pre ++ [p] ∧
      handleMovement dt snake0 false = some { snake0 with snakeBody := pre ++ [p, last] } ∧
      (currentSegmentLength last ≤ snakeMovespeed * dt →
        handleMovement dt snake0 true =
          some { snake0 with
            snakeBody :=
              pre ++ [moveBackCoord (snakeMovespeed * dt - currentSegmentLength last) p] }) ∧
      (snakeMovespeed * dt < currentSegmentLength last →
        handleMovement dt snake0 true =
          some { snake0 with
            snakeBody := pre ++ [p, moveBackCoord (snakeMovespeed * dt) last] }) := by
  rcases List.eq_nil_or_concat (moveFront dt head0 :: mid0) with h | ⟨pre, p, h⟩
  · simp at h
  · rw [List.concat_eq_append] at h
    have e : moveFront dt head0 :: (mid0 ++ [last]) = pre ++ [p, last] := by
      rw [← List.cons_append, h]; simp
    refine ⟨pre, p, h, ?_, ?_, ?_⟩
    · rw [handleMovement_cons dt snake0 false head0 _ hbody]
      simp [e]
    · intro hle
      rw [handleMovement_cons dt snake0 true head0 _ hbody]
      simp only [if_true, e, retractTail_pop _ pre p last hle, Option.map_some']
    · intro hlt
      have e2 : pre ++ [p, last] = (pre ++ [p]) ++ [last] := by simp
      rw [handleMovement_cons dt snake0 true head0 _ hbody]
      simp only [if_true, e, e2, retractTail_keep _ (pre ++ [p]) last hlt, Option.map_some']
      simp

/-! ### Directions are never changed by a movement -/

@[simp] theorem moveFront_direction (dt : ℚ) (head : SnakeSegment) :
    (moveFront dt head).direction = head.direction := by
  obtain ⟨front, back, dir⟩ := head
  cases dir <;> rfl

@[simp] theorem moveFront_backCoord (dt : ℚ) (head : SnakeSegment) :
    (moveFront dt head).backCoord = head.backCoord := by
  obtain ⟨front, back, dir⟩ := head
  cases dir <;> rfl

@[simp] theorem moveBackCoord_direction (e : ℚ) (last : SnakeSegment) :
    (moveBackCoord e last).direction = last.direction := by
  obtain ⟨front, back, dir⟩ := last
  cases dir <;> rfl

@[simp] theorem moveBackCoord_frontCoord (e : ℚ) (last : SnakeSegment) :
    (moveBackCoord e last).frontCoord = last.frontCoord := by
  obtain ⟨front, back, dir⟩ := last
  cases dir <;> rfl

@[simp] theorem shortenFront_direction (head : SnakeSegment) :
    (shortenFront head).direction = head.direction := rfl

@[simp] theorem shortenFront_backCoord (head : SnakeSegment) :
    (shortenFront head).backCoord = head.backCoord := rfl

theorem turnedSnake_reached :
    runMoves initialSnake [(MOVING_LEFT, 7 / 8)] = some turnedSnake := by
  simp [runMoves, moveTick, moveSnake, initialSnake, turnedSnake, addSegment, handleMovement,
    getSnakeLength, addSegmentLength, getSegmentLength, moveFront, snakeRadius,
    snakeMovespeed, abs_eq_max_neg, max_def]
  norm_num

/-! ### The shape of a whole tick -/

theorem addSegment_shape (snake : Snake) (head : SnakeSegment) (rest : List SnakeSegment)
    (hbody : snake.snakeBody = head :: rest) :
    ∃ head0 rest0,
      addSegment snake =
        some { snakeBody := head0 :: rest0, currentDirection := head0.direction,
               length := snake.length } ∧
      ((head0 = head ∧ rest0 = rest) ∨
        (perpendicular snake.currentDirection head.direction ∧
          head0 = turnSegment head.direction snake.currentDirection head.frontCoord ∧
          rest0 = shortenFront head :: rest)) := by
  obtain ⟨body, cur, len⟩ := snake
  simp only at hbody
  subst hbody
  rcases direction_trichotomy cur head.direction with h | h | h
  · refine ⟨head, rest, ?_, Or.inl ⟨rfl, rfl⟩⟩
    rw [addSegment_same _ head rest rfl h]
    simp [h]
  · refine ⟨head, rest, ?_, Or.inl ⟨rfl, rfl⟩⟩
    rw [addSegment_opposite _ head rest rfl h]
  · refine ⟨_, _, ?_, Or.inr ⟨h, rfl, rfl⟩⟩
    rw [addSegment_perpendicular _ head rest rfl h]
    simp [turnSegment]

theorem moveSnake_shape (dt : ℚ) (hdt : 0 ≤ dt) (snake : Snake) (head : SnakeSegment)
    (rest : List SnakeSegment) (hbody : snake.snakeBody = head :: rest)
    (hfwd : forwardOriented head) (hlen : 2 * snakeRadius ≤ currentSegmentLength head) :
    ∃ head0 rest0 body2,
      ((head0 = head ∧ rest0 = rest) ∨
        (perpendicular snake.currentDirection head.direction ∧
          head0 = turnSegment head.direction snake.currentDirection head.frontCoord ∧
          rest0 = shortenFront head :: rest)) ∧
      forwardOriented head0 ∧ 2 * snakeRadius ≤ currentSegmentLength head0 ∧
      moveSnake dt snake =
        some { snakeBody := body2, currentDirection := head0.direction,
               length := snake.length } ∧
      ((getSnakeLength snake < snake.length ∧ body2 = moveFront dt head0 :: rest0) ∨
        (¬ getSnakeLength snake < snake.length ∧
          ∃ pre tail, moveFront dt head0 :: rest0 = pre ++ [tail] ∧
            snakeMovespeed * dt < currentSegmentLength tail ∧
            body2 = pre ++ [moveBackCoord (snakeMovespeed * dt) tail]) ∨
        (¬ getSnakeLength snake < snake.length ∧
          ∃ pre last tail, moveFront dt head0 :: rest0 = pre ++ [last, tail] ∧
            currentSegmentLength tail ≤ snakeMovespeed * dt ∧
            body2 =
              pre ++ [moveBackCoord (snakeMovespeed * dt - currentSegmentLength tail) last])) := by
  obtain ⟨head0, rest0, hadd, hshape⟩ := addSegment_shape snake head rest hbody
  have hhead0 : forwardOriented head0 ∧ 2 * snakeRadius ≤ currentSegmentLength head0 := by
    rcases hshape with ⟨h, -⟩ | ⟨-, h, -⟩
    · rw [h]; exact ⟨hfwd, hlen⟩
    · rw [h]
      have := turnSegment_length head.direction snake.currentDirection head.frontCoord
      exact ⟨this.1, le_of_eq this.2.symm⟩
  have hmove := moveFront_length dt head0 hhead0.1 hdt
  have hr := snakeRadius_pos
  rw [moveSnake_eq, hadd, Option.some_bind, handleMovement_cons dt _ _ head0 rest0 rfl]
  by_cases hT : getSnakeLength snake < snake.length
  · exact ⟨head0, rest0, _, hshape, hhead0.1, hhead0.2, by simp [hT], Or.inl ⟨hT, rfl⟩⟩
  · have hmb : (!decide (getSnakeLength snake < snake.length)) = true := by simp [hT]
    rw [hmb]
    simp only [if_true]
    rcases retractTail_cases (snakeMovespeed * dt) (moveFront dt head0 :: rest0) (by simp) with
      ⟨pre, tail, h1, h2, h3⟩ | ⟨pre, last, tail, h1, h2, h3⟩ | ⟨tail, h1, h2, h3⟩
    · exact ⟨head0, rest0, _, hshape, hhead0.1, hhead0.2, by rw [h3]; rfl,
        Or.inr (Or.inl ⟨hT, pre, tail, h1, h2, rfl⟩)⟩
    · exact ⟨head0, rest0, _, hshape, hhead0.1, hhead0.2, by rw [h3]; rfl,
        Or.inr (Or.inr ⟨hT, pre, last, tail, h1, h2, rfl⟩)⟩
    · exfalso
      simp only [List.cons.injEq] at h1
      rw [← h1.1, hmove.2] at h2
      linarith [hhead0.2]

/-! ### The head stays long and the joints keep their offset -/

theorem chain_cons_congr {R : SnakeSegment → SnakeSegment → Prop} (a b : SnakeSegment)
    (rest : List SnakeSegment) (hR : ∀ y, R a y → R b y)
    (h : List.Chain' R (a :: rest)) : List.Chain' R (b :: rest) := by
  rw [List.chain'_cons'] at h ⊢
  exact ⟨fun y hy => hR y (h.1 y hy), h.2⟩

theorem chain_snoc_congr {R : SnakeSegment → SnakeSegment → Prop} (pre : List SnakeSegment)
    (a b : SnakeSegment) (hR : ∀ x, R x a → R x b)
    (h : List.Chain' R (pre ++ [a])) : List.Chain' R (pre ++ [b]) := by
  rw [List.chain'_append] at h ⊢
  refine ⟨h.1, List.chain'_singleton b, ?_⟩
  intro x hx y hy
  simp only [List.head?_cons, Option.mem_def, Option.some.injEq] at hy
  subst hy
  exact hR x (h.2.2 x hx a (by simp))

theorem chain_dropLast {R : SnakeSegment → SnakeSegment → Prop} (pre : List SnakeSegment)
    (a b : SnakeSegment) (h : List.Chain' R (pre ++ [a, b])) : List.Chain' R (pre ++ [a]) := by
  have e : pre ++ [a, b] = (pre ++ [a]) ++ [b] := by simp
  rw [e] at h
  exact h.left_of_append

theorem jointOffset_turn (head : SnakeSegment) (new : SnakeDirection)
    (h : perpendicular new head.direction) :
    jointOffset (turnSegment head.direction new head.frontCoord) (shortenFront head) := by
  have hr := snakeRadius_pos
  obtain ⟨front, back, dir⟩ := head
  cases dir <;> cases new <;> simp [perpendicular, opposite] at h <;>
    simp [jointOffset, turnSegment, shortenFront, unitVector] <;>
    constructor <;>
    first
      | linarith
      | (rw [abs_of_nonneg (by linarith)]; linarith)
      | (rw [abs_of_nonpos (by linarith)]; linarith)

theorem moveSnake_headLong (dt : ℚ) (hdt : 0 ≤ dt) (snake : Snake)
    (hhead : headLong snake.snakeBody) :
    ∃ snake1, moveSnake dt snake = some snake1 ∧ headLong snake1.snakeBody ∧
      snake1.length = snake.length := by
  obtain ⟨head, rest, hbody, hfwd, hlen⟩ := hhead
  obtain ⟨head0, rest0, body2, -, hfwd0, hlen0, hmove, hcases⟩ :=
    moveSnake_shape dt hdt snake head rest hbody hfwd hlen
  have hm := moveFront_length dt head0 hfwd0 hdt
  have hd : 0 ≤ snakeMovespeed * dt := by simp [snakeMovespeed]; exact hdt
  have hr := snakeRadius_pos
  refine ⟨_, hmove, ?_, rfl⟩
  rcases hcases with ⟨-, h⟩ | ⟨-, pre, tail, h1, h2, h3⟩ | ⟨-, pre, last, tail, h1, h2, h3⟩
  · exact ⟨moveFront dt head0, rest0, h, hm.1, by rw [hm.2]; linarith⟩
  · cases pre with
    | nil =>
        simp only [List.nil_append, List.cons.injEq] at h1
        have hb := moveBackCoord_length (snakeMovespeed * dt) tail (h1.1 ▸ hm.1) (le_of_lt h2)
        refine ⟨_, [], h3, hb.1, ?_⟩
        rw [hb.2, ← h1.1, hm.2]
        linarith
    | cons first pre1 =>
        simp only [List.cons_append, List.cons.injEq] at h1
        refine ⟨first, _, h3, h1.1 ▸ hm.1, ?_⟩
        rw [← h1.1, hm.2]
        linarith
  · have ht := currentSegmentLength_nonneg tail
    cases pre with
    | nil =>
        simp only [List.nil_append, List.cons.injEq] at h1
        have hb := moveBackCoord_length (snakeMovespeed * dt - currentSegmentLength tail) last
          (h1.1 ▸ hm.1) (by rw [← h1.1, hm.2]; linarith)
        refine ⟨_, [], h3, hb.1, ?_⟩
        rw [hb.2, ← h1.1, hm.2]
        linarith
    | cons first pre1 =>
        simp only [List.cons_append, List.cons.injEq] at h1
        refine ⟨first, _, h3, h1.1 ▸ hm.1, ?_⟩
        rw [← h1.1, hm.2]
        linarith

theorem moveSnake_joints (dt : ℚ) (hdt : 0 ≤ dt) (snake : Snake)
    (hhead : headLong snake.snakeBody) (hj : List.Chain' jointOffset snake.snakeBody)
    (snake1 : Snake) (hmove : moveSnake dt snake = some snake1) :
    List.Chain' jointOffset snake1.snakeBody := by
  obtain ⟨head, rest, hbody, hfwd, hlen⟩ := hhead
  obtain ⟨head0, rest0, body2, hshape, -, -, hmove2, hcases⟩ :=
    moveSnake_shape dt hdt snake head rest hbody hfwd hlen
  rw [hmove2] at hmove
  cases hmove
  rw [hbody] at hj
  have h0 : List.Chain' jointOffset (head0 :: rest0) := by
    rcases hshape with ⟨h1, h2⟩ | ⟨hperp, h1, h2⟩
    · rw [h1, h2]; exact hj
    · rw [h1, h2, List.chain'_cons]
      exact ⟨jointOffset_turn head _ hperp,
        chain_cons_congr head _ rest (fun y hy => by simpa [jointOffset] using hy) hj⟩
  have h1 : List.Chain' jointOffset (moveFront dt head0 :: rest0) :=
    chain_cons_congr head0 _ rest0 (fun y hy => by simpa [jointOffset] using hy) h0
  rcases hcases with ⟨-, h⟩ | ⟨-, pre, tail, e1, -, e3⟩ | ⟨-, pre, last, tail, e1, -, e3⟩
  · simp only
    rw [h]; exact h1
  · simp only
    rw [e3]
    rw [e1] at h1
    exact chain_snoc_congr pre tail _ (fun x hx => by simpa [jointOffset] using hx) h1
  · simp only
    rw [e3]
    rw [e1] at h1
    exact chain_snoc_congr pre last _ (fun x hx => by simpa [jointOffset] using hx)
      (chain_dropLast pre last tail h1)

theorem initialSnake_headLong : headLong initialSnake.snakeBody := by
  refine ⟨_, [], rfl, ?_, ?_⟩
  · simp [forwardOriented]
  · norm_num [currentSegmentLength, getSegmentLength, snakeRadius, abs_eq_max_neg, max_def]

theorem runMoves_invariant (inputs : List (SnakeDirection × ℚ))
    (hdt : ∀ input ∈ inputs, 0 ≤ input.2) (snake : Snake)
    (hhead : headLong snake.snakeBody) (hj : List.Chain' jointOffset snake.snakeBody) :
    ∃ snake1, runMoves snake inputs = some snake1 ∧ headLong snake1.snakeBody ∧
      List.Chain' jointOffset snake1.snakeBody := by
  induction inputs generalizing snake with
  | nil => exact ⟨snake, rfl, hhead, hj⟩
  | cons input rest ih =>
      have h0 : 0 ≤ input.2 := hdt input (by simp)
      obtain ⟨snake1, hstep, hhead1, -⟩ :=
        moveSnake_headLong input.2 h0 { snake with currentDirection := input.1 } hhead
      have hj1 := moveSnake_joints input.2 h0 { snake with currentDirection := input.1 } hhead hj
        snake1 hstep
      obtain ⟨snake2, hrun, hhead2, hj2⟩ :=
        ih (fun x hx => hdt x (by simp [hx])) snake1 hhead1 hj1
      refine ⟨snake2, ?_, hhead2, hj2⟩
      simp only [runMoves, moveTick, hstep, Option.some_bind]
      exact hrun

/-! ### Ticks of constant duration keep the traversed length pinned -/

theorem handleCollisions_snake (snake : Snake) (foodContainer : List Coord)
    (hne : snake.snakeBody ≠ []) :
    ∃ outcome, handleCollisions snake foodContainer = some outcome ∧
      outcome.snake.snakeBody = snake.snakeBody ∧
      outcome.snake.currentDirection = snake.currentDirection ∧
      (outcome.snake.length = snake.length ∨
        outcome.snake.length = snake.length + 2 * snakeRadius) := by
  obtain ⟨head, rest, hbody⟩ := List.exists_cons_of_ne_nil hne
  unfold handleCollisions
  simp only [hbody, List.getElem?_cons_zero, Option.bind_eq_bind, Option.some_bind]
  split
  · exact ⟨_, rfl, rfl, rfl, Or.inr rfl⟩
  · exact ⟨_, rfl, hbody, rfl, Or.inl rfl⟩

theorem moveSnake_steady (dt : ℚ) (hdt : 0 ≤ dt) (snake : Snake)
    (hs : steadyBody (snakeMovespeed * dt) snake.snakeBody)
    (hT : bodyLength snake.snakeBody ≤ snake.length + snakeMovespeed * dt) :
    ∃ snake1, moveSnake dt snake = some snake1 ∧
      steadyBody (snakeMovespeed * dt) snake1.snakeBody ∧
      snake1.length = snake.length ∧
      bodyLength snake1.snakeBody ≤ snake1.length + snakeMovespeed * dt := by
  obtain ⟨head, rest, hbody, hfwd, hlen, hlong, hrest, hmid⟩ := hs
  obtain ⟨head0, rest0, body2, hshape, hfwd0, hlen0, hmove, hcases⟩ :=
    moveSnake_shape dt hdt snake head rest hbody hfwd hlen
  have hm := moveFront_length dt head0 hfwd0 hdt
  have hd : 0 ≤ snakeMovespeed * dt := by simp [snakeMovespeed]; exact hdt
  have hr := snakeRadius_pos
  rw [getSnakeLength_eq, hbody] at hcases
  rw [hbody] at hT
  -- the body after `addSegment`
  have h0 : (∀ segment ∈ rest0, forwardOriented segment) ∧
      (∀ segment ∈ rest0.dropLast, snakeMovespeed * dt ≤ currentSegmentLength segment) ∧
      bodyLength (head0 :: rest0) = bodyLength (head :: rest) := by
    rcases hshape with ⟨h1, h2⟩ | ⟨-, h1, h2⟩
    · rw [h1, h2]; exact ⟨hrest, hmid, rfl⟩
    · have hsh := shortenFront_length head hfwd hlen
      have htl := turnSegment_length head.direction snake.currentDirection head.frontCoord
      rw [h1, h2]
      refine ⟨?_, ?_, ?_⟩
      · intro segment hseg
        rcases List.mem_cons.mp hseg with h | h
        · rw [h]; exact hsh.1
        · exact hrest segment h
      · intro segment hseg
        by_cases hne : rest = []
        · subst hne
          simp at hseg
        · rw [List.dropLast_cons_of_ne_nil hne] at hseg
          rcases List.mem_cons.mp hseg with h | h
          · rw [h, hsh.2]
            linarith [hlong hne]
          · exact hmid segment h
      · simp only [bodyLength_cons, htl.2, hsh.2]
        ring
  obtain ⟨hrest0, hmid0, hlen00⟩ := h0
  rw [bodyLength_cons] at hlen00
  refine ⟨_, hmove, ?_, rfl, ?_⟩
  · -- the shape is kept
    rcases hcases with ⟨-, h⟩ | ⟨-, pre, tail, h1, h2, h3⟩ | ⟨-, pre, last, tail, h1, h2, h3⟩
    · exact ⟨moveFront dt head0, rest0, h, hm.1, by rw [hm.2]; linarith,
        fun _ => by rw [hm.2]; linarith, hrest0, hmid0⟩
    · cases pre with
      | nil =>
          simp only [List.nil_append, List.cons.injEq] at h1
          have hb := moveBackCoord_length (snakeMovespeed * dt) tail (h1.1 ▸ hm.1) (le_of_lt h2)
          refine ⟨_, [], h3, hb.1, ?_, fun h => absurd rfl h, by simp, by simp⟩
          rw [hb.2, ← h1.1, hm.2]
          linarith
      | cons first pre1 =>
          simp only [List.cons_append, List.cons.injEq] at h1
          obtain ⟨hfirst, hr0⟩ := h1
          have htail : forwardOriented tail := hrest0 tail (by rw [hr0]; simp)
          have hb := moveBackCoord_length (snakeMovespeed * dt) tail htail (le_of_lt h2)
          refine ⟨first, pre1 ++ [moveBackCoord (snakeMovespeed * dt) tail], h3, hfirst ▸ hm.1,
            ?_, fun _ => ?_, ?_, ?_⟩
          · rw [← hfirst, hm.2]; linarith
          · rw [← hfirst, hm.2]; linarith
          · intro segment hseg
            rcases List.mem_append.mp hseg with h | h
            · exact hrest0 segment (by rw [hr0]; simp [h])
            · simp only [List.mem_singleton] at h
              rw [h]; exact hb.1
          · intro segment hseg
            rw [List.dropLast_concat] at hseg
            exact hmid0 segment (by rw [hr0, List.dropLast_concat]; exact hseg)
    · have ht := currentSegmentLength_nonneg tail
      cases pre with
      | nil =>
          simp only [List.nil_append, List.cons.injEq] at h1
          have hb := moveBackCoord_length (snakeMovespeed * dt - currentSegmentLength tail) last
            (h1.1 ▸ hm.1) (by rw [← h1.1, hm.2]; linarith)
          refine ⟨_, [], h3, hb.1, ?_, fun h => absurd rfl h, by simp, by simp⟩
          rw [hb.2, ← h1.1, hm.2]
          linarith
      | cons first pre1 =>
          simp only [List.cons_append, List.cons.injEq] at h1
          obtain ⟨hfirst, hr0⟩ := h1
          have e0 : rest0 = (pre1 ++ [last]) ++ [tail] := by rw [hr0]; simp
          have hlastmid : snakeMovespeed * dt ≤ currentSegmentLength last :=
            hmid0 last (by rw [e0, List.dropLast_concat]; simp)
          have hlast : forwardOriented last := hrest0 last (by rw [hr0]; simp)
          have hb := moveBackCoord_length (snakeMovespeed * dt - currentSegmentLength tail) last
            hlast (by linarith)
          refine ⟨first,
            pre1 ++ [moveBackCoord (snakeMovespeed * dt - currentSegmentLength tail) last], h3,
            hfirst ▸ hm.1, ?_, fun _ => ?_, ?_, ?_⟩
          · rw [← hfirst, hm.2]; linarith
          · rw [← hfirst, hm.2]; linarith
          · intro segment hseg
            rcases List.mem_append.mp hseg with h | h
            · exact hrest0 segment (by rw [hr0]; simp [h])
            · simp only [List.mem_singleton] at h
              rw [h]; exact hb.1
          · intro segment hseg
            rw [List.dropLast_concat] at hseg
            exact hmid0 segment (by rw [e0, List.dropLast_concat]; simp [hseg])
  · -- the traversed length stays below the target plus one step
    simp only
    rcases hcases with ⟨hlt, h⟩ | ⟨-, pre, tail, h1, h2, h3⟩ | ⟨-, pre, last, tail, h1, h2, h3⟩
    · rw [h, bodyLength_cons, hm.2]
      linarith
    · have hsum := congrArg bodyLength h1
      rw [bodyLength_cons, bodyLength_append, hm.2] at hsum
      simp only [bodyLength_cons, bodyLength_nil, add_zero] at hsum
      have htail : forwardOriented tail := by
        cases pre with
        | nil =>
            simp only [List.nil_append, List.cons.injEq] at h1
            exact h1.1 ▸ hm.1
        | cons first pre1 =>
            simp only [List.cons_append, List.cons.injEq] at h1
            exact hrest0 tail (by rw [h1.2]; simp)
      have hb := moveBackCoord_length (snakeMovespeed * dt) tail htail (le_of_lt h2)
      rw [h3, bodyLength_append]
      simp only [bodyLength_cons, bodyLength_nil, add_zero, hb.2]
      linarith
    · have ht := currentSegmentLength_nonneg tail
      have hsum := congrArg bodyLength h1
      rw [bodyLength_cons, bodyLength_append, hm.2] at hsum
      simp only [bodyLength_cons, bodyLength_nil, add_zero] at hsum
      have hlast : forwardOriented last ∧
          snakeMovespeed * dt - currentSegmentLength tail ≤ currentSegmentLength last := by
        cases pre with
        | nil =>
            simp only [List.nil_append, List.cons.injEq] at h1
            refine ⟨h1.1 ▸ hm.1, ?_⟩
            rw [← h1.1, hm.2]; linarith
        | cons first pre1 =>
            simp only [List.cons_append, List.cons.injEq] at h1
            have e0 : rest0 = (pre1 ++ [last]) ++ [tail] := by rw [h1.2]; simp
            have hlastmid : snakeMovespeed * dt ≤ currentSegmentLength last :=
              hmid0 last (by rw [e0, List.dropLast_concat]; simp)
            exact ⟨hrest0 last (by rw [h1.2]; simp), by linarith⟩
      have hb := moveBackCoord_length (snakeMovespeed * dt - currentSegmentLength tail) last
        hlast.1 hlast.2
      rw [h3, bodyLength_append]
      simp only [bodyLength_cons, bodyLength_nil, add_zero, hb.2]
      linarith

theorem initialSnake_steady (d : ℚ) : steadyBody d initialSnake.snakeBody := by
  refine ⟨_, [], rfl, ?_, ?_, fun h => absurd rfl h, by simp, by simp⟩
  · simp [forwardOriented]
  · norm_num [currentSegmentLength, getSegmentLength, snakeRadius, abs_eq_max_neg, max_def]

theorem initialSnake_bodyLength : bodyLength initialSnake.snakeBody = 1 / 2 := by
  norm_num [bodyLength, initialSnake, currentSegmentLength, getSegmentLength, abs_eq_max_neg,
    max_def]

theorem runFrames_steady (dt : ℚ) (hdt : 0 ≤ dt) (inputs : List (SnakeDirection × List Coord))
    (snake : Snake) (hs : steadyBody (snakeMovespeed * dt) snake.snakeBody)
    (hT : bodyLength snake.snakeBody ≤ snake.length + snakeMovespeed * dt) :
    ∃ snake1,
      runFrames snake (inputs.map (fun input => (input.1, dt, input.2))) = some snake1 ∧
      steadyBody (snakeMovespeed * dt) snake1.snakeBody ∧
      bodyLength snake1.snakeBody ≤ snake1.length + snakeMovespeed * dt := by
  induction inputs generalizing snake with
  | nil => exact ⟨snake, rfl, hs, hT⟩
  | cons input rest ih =>
      obtain ⟨snake1, hstep, hs1, hlen1, hT1⟩ :=
        moveSnake_steady dt hdt { snake with currentDirection := input.1 } hs hT
      have hne : snake1.snakeBody ≠ [] := by
        obtain ⟨head, tl, h, -⟩ := hs1
        rw [h]; simp
      obtain ⟨outcome, hcol, hbody2, -, hlen2⟩ := handleCollisions_snake snake1 input.2 hne
      have hr := snakeRadius_pos
      have hT2 : bodyLength outcome.snake.snakeBody ≤
          outcome.snake.length + snakeMovespeed * dt := by
        rw [hbody2]
        rcases hlen2 with h | h <;> rw [h] <;> linarith
      obtain ⟨snake3, hrun, hs3, hT3⟩ := ih outcome.snake (hbody2 ▸ hs1) hT2
      refine ⟨snake3, ?_, hs3, hT3⟩
      simp only [List.map_cons, runFrames, frameTick, hstep, Option.some_bind, hcol,
        Option.map_some']
      exact hrun

/-! ### Rounded arithmetic -/

theorem handleMovementRounded_cons (rnd : ℚ → ℚ) (dt : ℚ) (snake : Snake) (moveBack : Bool)
    (head : SnakeSegment) (rest : List SnakeSegment) (hbody : snake.snakeBody = head :: rest) :
    handleMovementRounded rnd dt snake moveBack =
      if moveBack then
        (retractTailRounded rnd dt (moveFrontRounded rnd dt head :: rest)).map
          (fun body => { snake with snakeBody := body })
      else some { snake with snakeBody := moveFrontRounded rnd dt head :: rest } := by
  unfold handleMovementRounded retractTailRounded
  cases moveBack <;> simp [hbody]

theorem retractTailRounded_snoc (rnd : ℚ → ℚ) (dt : ℚ) (front : List SnakeSegment)
    (last : SnakeSegment) (hne : front ≠ []) :
    ∃ body2, retractTailRounded rnd dt (front ++ [last]) = some body2 ∧ 1 ≤ body2.length := by
  by_cases hpop : currentSegmentLengthRounded rnd last ≤ rnd (snakeMovespeed * dt)
  · have hstep : retractTailRounded rnd dt (front ++ [last]) =
        (front[front.length - 1]?).bind (fun p =>
          some (front.set (front.length - 1)
            (moveBackCoordRounded rnd
              (rnd (rnd (snakeMovespeed * dt) - currentSegmentLengthRounded rnd last)) p))) := by
      simp [retractTailRounded, hpop]
    rcases List.eq_nil_or_concat front with hnil | ⟨pre, p, hpre⟩
    · exact absurd hnil hne
    · rw [List.concat_eq_append] at hpre
      subst hpre
      refine ⟨pre ++ [moveBackCoordRounded rnd
        (rnd (rnd (snakeMovespeed * dt) - currentSegmentLengthRounded rnd last)) p], ?_, by simp⟩
      rw [hstep]
      simp
  · refine ⟨front ++ [moveBackCoordRounded rnd (rnd (snakeMovespeed * dt)) last], ?_, by simp⟩
    simp [retractTailRounded, hpop]

theorem handleMovementRounded_two (rnd : ℚ → ℚ) (dt : ℚ) (snake : Snake) (moveBack : Bool)
    (h : 2 ≤ snake.snakeBody.length) :
    ∃ snake1, handleMovementRounded rnd dt snake moveBack = some snake1 ∧
      1 ≤ snake1.snakeBody.length ∧ snake1.length = snake.length := by
  cases hbody : snake.snakeBody with
  | nil => rw [hbody] at h; simp at h
  | cons head rest =>
      rcases List.eq_nil_or_concat rest with hnil | ⟨mid, last, hrest⟩
      · rw [hbody, hnil] at h; simp at h
      · rw [List.concat_eq_append] at hrest
        subst hrest
        rw [handleMovementRounded_cons rnd dt snake moveBack head _ hbody]
        cases moveBack with
        | false => exact ⟨_, rfl, by simp, rfl⟩
        | true =>
            obtain ⟨body2, h1, h2⟩ :=
              retractTailRounded_snoc rnd dt (moveFrontRounded rnd dt head :: mid) last (by simp)
            rw [List.cons_append] at h1
            exact ⟨{ snake with snakeBody := body2 }, by simp [h1], h2, rfl⟩

theorem addSegmentRounded_length (rnd : ℚ → ℚ) (snake : Snake)
    (hne : snake.snakeBody ≠ []) :
    ∃ snake0, addSegmentRounded rnd snake = some snake0 ∧
      snake.snakeBody.length ≤ snake0.snakeBody.length ∧ snake0.length = snake.length := by
  obtain ⟨head, rest, hbody⟩ := List.exists_cons_of_ne_nil hne
  obtain ⟨body, cur, len⟩ := snake
  obtain ⟨front, back, dir⟩ := head
  simp only at hbody
  subst hbody
  cases dir <;> cases cur <;> simp [addSegmentRounded]

theorem moveSnakeRounded_two (rnd : ℚ → ℚ) (dt : ℚ) (snake : Snake)
    (h : 2 ≤ snake.snakeBody.length) :
    ∃ snake1, moveSnakeRounded rnd dt snake = some snake1 ∧ 1 ≤ snake1.snakeBody.length := by
  have hne : snake.snakeBody ≠ [] := by
    intro hnil
    rw [hnil] at h
    simp at h
  obtain ⟨head, rest, hbody⟩ := List.exists_cons_of_ne_nil hne
  obtain ⟨snake0, hadd, hlen0, -⟩ := addSegmentRounded_length rnd snake hne
  obtain ⟨snake1, h1, h2, -⟩ := handleMovementRounded_two rnd dt snake
    (!decide (getSnakeLengthRounded rnd snake < snake.length)) h
  obtain ⟨snake2, h3, h4, -⟩ := handleMovementRounded_two rnd dt snake0
    (!decide (getSnakeLengthRounded rnd snake < snake0.length)) (le_trans h hlen0)
  by_cases hdir : snake.currentDirection = head.direction
  · exact ⟨snake1, by simp [moveSnakeRounded, hbody, hdir, h1], h2⟩
  · refine ⟨snake2, ?_, h4⟩
    simp only [moveSnakeRounded, hbody, List.getElem?_cons_zero, Option.bind_eq_bind,
      Option.some_bind, ne_eq, hdir, not_false_eq_true, if_true, hadd]
    exact h3

theorem moveFrontRounded_direction (rnd : ℚ → ℚ) (dt : ℚ) (head : SnakeSegment) :
    (moveFrontRounded rnd dt head).direction = head.direction := by
  obtain ⟨front, back, dir⟩ := head
  cases dir <;> rfl

theorem moveBackCoordRounded_direction (rnd : ℚ → ℚ) (e : ℚ) (last : SnakeSegment) :
    (moveBackCoordRounded rnd e last).direction = last.direction := by
  obtain ⟨front, back, dir⟩ := last
  cases dir <;> rfl

theorem addSegmentRounded_opposite (rnd : ℚ → ℚ) (snake : Snake) (head : SnakeSegment)
    (rest : List SnakeSegment) (hbody : snake.snakeBody = head :: rest)
    (hdir : snake.currentDirection = opposite head.direction) :
    addSegmentRounded rnd snake = some { snake with currentDirection := head.direction } := by
  obtain ⟨body, cur, len⟩ := snake
  obtain ⟨front, back, dir⟩ := head
  simp only at hbody hdir
  subst hbody hdir
  cases dir <;> simp [addSegmentRounded, opposite]

theorem opposite_ne (d : SnakeDirection) : opposite d ≠ d := by
  cases d <;> simp [opposite]

theorem retractTailRounded_snoc_shape (rnd : ℚ → ℚ) (dt : ℚ) (first : SnakeSegment)
    (mid : List SnakeSegment) (last : SnakeSegment) :
    ∃ body2 head1 rest1, retractTailRounded rnd dt (first :: (mid ++ [last])) = some body2 ∧
      body2 = head1 :: rest1 ∧ head1.direction = first.direction ∧
      (currentSegmentLengthRounded rnd last ≤ rnd (snakeMovespeed * dt) →
        body2.length = mid.length + 1) ∧
      (¬ currentSegmentLengthRounded rnd last ≤ rnd (snakeMovespeed * dt) →
        body2.length = mid.length + 2) := by
  by_cases hpop : currentSegmentLengthRounded rnd last ≤ rnd (snakeMovespeed * dt)
  · have hstep : ∀ front : List SnakeSegment,
        retractTailRounded rnd dt (front ++ [last]) =
          (front[front.length - 1]?).bind (fun p =>
            some (front.set (front.length - 1)
              (moveBackCoordRounded rnd
                (rnd (rnd (snakeMovespeed * dt) - currentSegmentLengthRounded rnd last))
                p))) := by
      intro front
      simp [retractTailRounded, hpop]
    have hcons : first :: (mid ++ [last]) = (first :: mid) ++ [last] := rfl
    rw [hcons, hstep]
    rcases List.eq_nil_or_concat mid with hnil | ⟨pre, p, hpre⟩
    · subst hnil
      exact ⟨_, _, [], rfl, rfl, moveBackCoordRounded_direction rnd _ first,
        fun _ => rfl, fun h => absurd hpop h⟩
    · rw [List.concat_eq_append] at hpre
      subst hpre
      refine ⟨first :: (pre ++ [moveBackCoordRounded rnd
        (rnd (rnd (snakeMovespeed * dt) - currentSegmentLengthRounded rnd last)) p]), first, _,
        ?_, rfl, rfl, fun _ => by simp, fun h => absurd hpop h⟩
      have hc : first :: (pre ++ [p]) = (first :: pre) ++ [p] := rfl
      rw [hc]
      simp
  · refine ⟨first :: (mid ++ [moveBackCoordRounded rnd (rnd (snakeMovespeed * dt)) last]),
      first, _, ?_, rfl, rfl, fun h => absurd h hpop, fun _ => by simp⟩
    have hc : first :: (mid ++ [last]) = (first :: mid) ++ [last] := rfl
    rw [hc]
    simp [retractTailRounded, hpop]

theorem moveSnakeRounded_id (dt : ℚ) (snake : Snake) :
    moveSnakeRounded id dt snake = moveSnake dt snake := by
  have hlen : ∀ body : List SnakeSegment, ∀ total : ℚ,
      body.foldl (addSegmentLengthRounded id) total = body.foldl addSegmentLength total := by
    intro body
    induction body with
    | nil => intro total; rfl
    | cons segment rest ih =>
        intro total
        simp only [List.foldl_cons, ih]
        rfl
  have hmove : ∀ (s : Snake) (b : Bool), handleMovementRounded id dt s b = handleMovement dt s b := by
    intro s b
    simp [handleMovementRounded, handleMovement, moveFrontRounded, moveFront,
      moveBackCoordRounded, moveBackCoord, currentSegmentLengthRounded, currentSegmentLength,
      getSegmentLengthRounded, getSegmentLength]
  have hadd : addSegmentRounded id snake = addSegment snake := by
    simp [addSegmentRounded, addSegment]
  simp only [moveSnakeRounded, moveSnake, getSnakeLengthRounded, getSnakeLength, hlen, hmove,
    hadd]

theorem addFoodRounded_id (randomMax sample1 sample2 : ℚ) (snake : Snake)
    (foodContainer : List Coord) :
    addFoodRounded id randomMax sample1 sample2 snake foodContainer =
      addFood randomMax sample1 sample2 snake foodContainer := by
  have hb : ∀ segment,
      setBoundsFromSegmentRounded id segment = setBoundsFromSegment segment := by
    intro segment
    unfold setBoundsFromSegmentRounded setBoundsFromSegment
    cases segment.direction <;> rfl
  have hs : ∀ sample,
      scaleSampleRounded id randomMax sample = scaleSample randomMax sample := by
    intro sample
    rfl
  have hc : ∀ x y segment,
      cornerInSegmentRounded id x y segment = cornerInSegment x y segment := by
    intro x y segment
    unfold cornerInSegmentRounded cornerInSegment
    rw [hb]
    rfl
  unfold addFoodRounded addFood
  simp only [hs, hc]

/-- C2: when `currentDirection` is the reverse of the head's direction, `addSegment`
returns with the body unchanged and the target length unchanged, and `currentDirection`
reset to the head's direction. -/
theorem addSegment_reversal_is_noop (snake : Snake) (head : SnakeSegment)
    (rest : List SnakeSegment) (hbody : snake.snakeBody = head :: rest)
    (hdir : snake.currentDirection = opposite head.direction) :
    ∃ snake1, addSegment snake = some snake1 ∧ snake1.snakeBody = snake.snakeBody ∧
      snake1.length = snake.length ∧ snake1.currentDirection = head.direction := by
  exact ⟨_, addSegment_opposite snake head rest hbody hdir, rfl, rfl, rfl⟩

/-- C2 at the initial snake with a request to move down. -/
theorem addSegment_reversal_is_noop_witness :
    ∃ snake1, addSegment { initialSnake with currentDirection := MOVING_DOWN } = some snake1 ∧
      snake1.snakeBody = initialSnake.snakeBody ∧ snake1.length = initialSnake.length ∧
      snake1.currentDirection = MOVING_UP :=
  addSegment_reversal_is_noop { initialSnake with currentDirection := MOVING_DOWN }
    { frontCoord := (0, 0), backCoord := (1 / 2, 0), direction := MOVING_UP } [] rfl rfl

/-- C5: when `currentDirection` is perpendicular to the head's direction, `addSegment`
puts exactly one new segment in front, with direction `currentDirection`; the former head
follows it with its direction and back point unchanged and its front point moved by
`2 * snakeRadius = 0.25` (up: `x + 0.25`, down: `x - 0.25`, left: `z - 0.25`, right:
`z + 0.25`); the other segments follow unchanged.  Turning from up to left and then from
left to up raises the number of segments by exactly two. -/
theorem addSegment_perpendicular_prepends (snake : Snake) (head : SnakeSegment)
    (rest : List SnakeSegment) (hbody : snake.snakeBody = head :: rest)
    (hdir : perpendicular snake.currentDirection head.direction) :
    ∃ snake1 newHead, addSegment snake = some snake1 ∧
      snake1.snakeBody =
        newHead ::
          { head with
            frontCoord :=
              match head.direction with
              | MOVING_UP => (head.frontCoord.1 + 1 / 4, head.frontCoord.2)
              | MOVING_DOWN => (head.frontCoord.1 - 1 / 4, head.frontCoord.2)
              | MOVING_LEFT => (head.frontCoord.1, head.frontCoord.2 - 1 / 4)
              | MOVING_RIGHT => (head.frontCoord.1, head.frontCoord.2 + 1 / 4) } :: rest ∧
      newHead.direction = snake.currentDirection ∧
      snake1.snakeBody.length = snake.snakeBody.length + 1 ∧
      2 * snakeRadius = 1 / 4 ∧
      (head.direction = MOVING_UP → snake.currentDirection = MOVING_LEFT →
        ∃ snake2, addSegment { snake1 with currentDirection := MOVING_UP } = some snake2 ∧
          snake2.snakeBody.length = snake.snakeBody.length + 2) := by
  refine ⟨_, turnSegment head.direction snake.currentDirection head.frontCoord,
    addSegment_perpendicular snake head rest hbody hdir, ?_, rfl, ?_, ?_, ?_⟩
  · obtain ⟨front, back, dir⟩ := head
    cases dir <;> simp [shortenFront, unitVector, snakeRadius] <;> norm_num
  · simp [hbody]
  · norm_num [snakeRadius]
  · intro hup hleft
    refine ⟨_, addSegment_perpendicular _ _ _ rfl ?_, ?_⟩
    · simp [turnSegment, hleft, perpendicular, opposite]
    · simp [hbody]

/-- C5 at the initial snake with a request to move left. -/
theorem addSegment_perpendicular_prepends_witness :
    ∃ snake1 newHead, addSegment { initialSnake with currentDirection := MOVING_LEFT } = some snake1 ∧
      snake1.snakeBody =
        [newHead, { frontCoord := (0 + 1 / 4, 0), backCoord := (1 / 2, 0), direction := MOVING_UP }] ∧
      newHead.direction = MOVING_LEFT ∧
      snake1.snakeBody.length = 1 + 1 ∧
      2 * snakeRadius = 1 / 4 ∧
      (MOVING_UP = MOVING_UP → MOVING_LEFT = MOVING_LEFT →
        ∃ snake2, addSegment { snake1 with currentDirection := MOVING_UP } = some snake2 ∧
          snake2.snakeBody.length = 1 + 2) :=
  addSegment_perpendicular_prepends { initialSnake with currentDirection := MOVING_LEFT }
    { frontCoord := (0, 0), backCoord := (1 / 2, 0), direction := MOVING_UP } [] rfl
    (by decide)

/-- C6, as stated, fails at the initial snake turning left: the new head's back point is
`(0.125, -0.125)`, while the old head's front point was `(0, 0)`. -/
theorem addSegment_newHead_back_counterexample :
    addSegment { initialSnake with currentDirection := MOVING_LEFT } =
        some
          { snakeBody :=
              [{ frontCoord := (1 / 8, 1 / 8), backCoord := (1 / 8, -(1 / 8)),
                 direction := MOVING_LEFT },
               { frontCoord := (1 / 4, 0), backCoord := (1 / 2, 0), direction := MOVING_UP }]
            currentDirection := MOVING_LEFT
            length := 1 } ∧
      (((1 / 8 : ℚ), (-(1 / 8) : ℚ)) ≠ ((0 : ℚ), (0 : ℚ))) := by
  constructor
  · simp [addSegment, initialSnake, snakeRadius]
    norm_num
  · simp

/-- C6, amended: after a perpendicular turn the new head carries the requested direction,
and its back point is the old head's front point moved by `snakeRadius` against the old
direction and by `snakeRadius` against the new direction; its front point is the same
point moved by `snakeRadius` against the old direction and by `snakeRadius` along the new
one. -/
theorem addSegment_turn_geometry (snake : Snake) (head : SnakeSegment)
    (rest : List SnakeSegment) (hbody : snake.snakeBody = head :: rest)
    (hdir : perpendicular snake.currentDirection head.direction) :
    ∃ snake1 newHead tail, addSegment snake = some snake1 ∧
      snake1.snakeBody = newHead :: tail ∧
      newHead.direction = snake.currentDirection ∧
      newHead.backCoord =
        (head.frontCoord.1 - snakeRadius * (unitVector head.direction).1
            - snakeRadius * (unitVector snake.currentDirection).1,
          head.frontCoord.2 - snakeRadius * (unitVector head.direction).2
            - snakeRadius * (unitVector snake.currentDirection).2) ∧
      newHead.frontCoord =
        (head.frontCoord.1 - snakeRadius * (unitVector head.direction).1
            + snakeRadius * (unitVector snake.currentDirection).1,
          head.frontCoord.2 - snakeRadius * (unitVector head.direction).2
            + snakeRadius * (unitVector snake.currentDirection).2) :=
  ⟨_, _, _, addSegment_perpendicular snake head rest hbody hdir, rfl, rfl, rfl, rfl⟩

/-- C6, amended, at the initial snake with a request to move left. -/
theorem addSegment_turn_geometry_witness :
    ∃ snake1 newHead tail,
      addSegment { initialSnake with currentDirection := MOVING_LEFT } = some snake1 ∧
      snake1.snakeBody = newHead :: tail ∧
      newHead.direction = MOVING_LEFT ∧
      newHead.backCoord =
        (0 - snakeRadius * (unitVector MOVING_UP).1 - snakeRadius * (unitVector MOVING_LEFT).1,
          0 - snakeRadius * (unitVector MOVING_UP).2 - snakeRadius * (unitVector MOVING_LEFT).2) ∧
      newHead.frontCoord =
        (0 - snakeRadius * (unitVector MOVING_UP).1 + snakeRadius * (unitVector MOVING_LEFT).1,
          0 - snakeRadius * (unitVector MOVING_UP).2 + snakeRadius * (unitVector MOVING_LEFT).2) :=
  addSegment_turn_geometry { initialSnake with currentDirection := MOVING_LEFT }
    { frontCoord := (0, 0), backCoord := (1 / 2, 0), direction := MOVING_UP } [] rfl
    (by decide)

/-! ## Boxes -/

/-- C9: `inBox` holds exactly when the point is strictly between `x1` and `x2` and strictly
between `z1` and `z2`; a point with a coordinate equal to one of the four bounds is not in
the box. -/
theorem inBox_iff_strict (x1 x2 z1 z2 : ℚ) (point : Coord) :
    (inBox x1 x2 z1 z2 point = true ↔
        (x1 < point.1 ∧ point.1 < x2) ∧ (z1 < point.2 ∧ point.2 < z2)) ∧
      (point.1 = x1 ∨ point.1 = x2 ∨ point.2 = z1 ∨ point.2 = z2 →
        inBox x1 x2 z1 z2 point = false) := by
  have hiff : inBox x1 x2 z1 z2 point = true ↔
      (x1 < point.1 ∧ point.1 < x2) ∧ (z1 < point.2 ∧ point.2 < z2) := by
    simp [inBox]
  refine ⟨hiff, ?_⟩
  intro hedge
  rw [← Bool.not_eq_true, hiff]
  rintro ⟨⟨h1, h2⟩, h3, h4⟩
  rcases hedge with h | h | h | h
  · exact absurd h (ne_of_gt h1)
  · exact absurd h (ne_of_lt h2)
  · exact absurd h (ne_of_gt h3)
  · exact absurd h (ne_of_lt h4)

/-- C9 on the unit box: the centre is inside and the point `(0, 1/2)` on the left edge is
not. -/
theorem inBox_iff_strict_witness :
    inBox 0 1 0 1 (1 / 2, 1 / 2) = true ∧ inBox 0 1 0 1 (0, 1 / 2) = false :=
  ⟨((inBox_iff_strict 0 1 0 1 (1 / 2, 1 / 2)).1).2 (by norm_num),
    (inBox_iff_strict 0 1 0 1 (0, 1 / 2)).2 (Or.inl rfl)⟩

/-- C10, as stated, fails for a segment moving up whose front lies behind its back: the
box of the segment with front `(1, 0)` and back `(0, 0)` has `x1 = 1` and `x2 = 0`. -/
theorem setBoundsFromSegment_order_counterexample :
    setBoundsFromSegment
        { frontCoord := (1, 0), backCoord := (0, 0), direction := MOVING_UP } =
        (1, 0, -(1 / 8), 1 / 8) ∧
      ¬ ((1 : ℚ) ≤ 0) := by
  constructor
  · simp [setBoundsFromSegment, snakeRadius]
  · norm_num

/-- C10, amended: the box produced by `setBoundsFromSegment` satisfies `x1 ≤ x2` and
`z1 ≤ z2` exactly when the segment is forward-oriented (the bounds are taken in the order
given by the direction, not normalised). -/
theorem setBoundsFromSegment_ordered_iff (segment : SnakeSegment) :
    ((setBoundsFromSegment segment).1 ≤ (setBoundsFromSegment segment).2.1 ∧
        (setBoundsFromSegment segment).2.2.1 ≤ (setBoundsFromSegment segment).2.2.2) ↔
      forwardOriented segment := by
  obtain ⟨front, back, dir⟩ := segment
  cases dir <;> simp [setBoundsFromSegment, forwardOriented, snakeRadius] <;> intro _ <;>
    linarith

/-! ## Growth and retraction (`moveSnake`) -/

/-- C3, as stated, fails on `turnedSnake`, the state one tick after the start when that
tick turns left with `dt = 7/8`: a request to move right with `dt = 1/4` is rejected as a
turn, but the tick still retracts the whole last segment, so two segments become one. -/
theorem moveSnake_reversal_counterexample :
    runMoves initialSnake [(MOVING_LEFT, 7 / 8)] = some turnedSnake ∧
      turnedSnake.snakeBody.length = 2 ∧
      MOVING_RIGHT = opposite MOVING_LEFT ∧
      moveSnake (1 / 4) { turnedSnake with currentDirection := MOVING_RIGHT } =
        some
          { snakeBody :=
              [{ frontCoord := (1 / 8, 5 / 4), backCoord := (1 / 8, -(1 / 8)),
                 direction := MOVING_LEFT }]
            currentDirection := MOVING_LEFT
            length := 1 } := by
  refine ⟨turnedSnake_reached, rfl, rfl, ?_⟩
  simp [moveSnake, turnedSnake, addSegment, handleMovement, getSnakeLength, addSegmentLength,
    getSegmentLength, moveFront, moveBackCoord, currentSegmentLength, snakeRadius,
    snakeMovespeed, abs_eq_max_neg, max_def]
  norm_num

/-- C3, amended: for a body of at least two segments, a tick whose request is the reverse
of the head's direction returns, never adds a segment and keeps the direction of the head;
the number of segments is one less than before when the tick drops the last segment (the
traversed length that the program measures at the start is not below the target and
`snakeMovespeed * dt` is at least the length that it measures for the last segment), and
the same as before otherwise.  This holds in the arithmetic of the program for every
rounding `rnd`, the exact one included. -/
theorem moveSnake_reversal (rnd : ℚ → ℚ) (dt : ℚ) (snake : Snake) (head : SnakeSegment)
    (rest : List SnakeSegment) (hbody : snake.snakeBody = head :: rest)
    (hdir : snake.currentDirection = opposite head.direction) (hrest0 : rest ≠ []) :
    ∃ snake1 head1 rest1, moveSnakeRounded rnd dt snake = some snake1 ∧
      snake1.snakeBody = head1 :: rest1 ∧ head1.direction = head.direction ∧
      ((∃ init last, rest = init ++ [last] ∧
          ¬ getSnakeLengthRounded rnd snake < snake.length ∧
          currentSegmentLengthRounded rnd last ≤ rnd (snakeMovespeed * dt)) →
        snake1.snakeBody.length + 1 = snake.snakeBody.length) ∧
      (¬ (∃ init last, rest = init ++ [last] ∧
          ¬ getSnakeLengthRounded rnd snake < snake.length ∧
          currentSegmentLengthRounded rnd last ≤ rnd (snakeMovespeed * dt)) →
        snake1.snakeBody.length = snake.snakeBody.length) := by
  have hne : snake.currentDirection ≠ head.direction := by
    rw [hdir]
    exact opposite_ne head.direction
  have hstep : moveSnakeRounded rnd dt snake =
      handleMovementRounded rnd dt { snake with currentDirection := head.direction }
        (!decide (getSnakeLengthRounded rnd snake < snake.length)) := by
    have h0 : snake.snakeBody[0]? = some head := by
      rw [hbody, List.getElem?_cons_zero]
    simp only [moveSnakeRounded, h0, Option.bind_eq_bind, Option.some_bind, ne_eq, hne,
      not_false_eq_true, if_true, addSegmentRounded_opposite rnd snake head rest hbody hdir]
  rw [hstep,
    handleMovementRounded_cons rnd dt { snake with currentDirection := head.direction } _ head
      rest hbody]
  obtain ⟨init, last, hrest⟩ : ∃ init last, rest = init ++ [last] := by
    rcases List.eq_nil_or_concat rest with hnil | ⟨init, last, hrest⟩
    · exact absurd hnil hrest0
    · exact ⟨init, last, by rw [hrest, List.concat_eq_append]⟩
  subst hrest
  by_cases hT : getSnakeLengthRounded rnd snake < snake.length
  · refine ⟨{ snake with
        snakeBody := moveFrontRounded rnd dt head :: (init ++ [last])
        currentDirection := head.direction },
      moveFrontRounded rnd dt head, init ++ [last], by simp [hT], rfl,
      moveFrontRounded_direction rnd dt head, ?_, ?_⟩
    · rintro ⟨_, _, _, h, _⟩
      exact absurd hT h
    · intro _
      simp [hbody]
  · have hmb : (!decide (getSnakeLengthRounded rnd snake < snake.length)) = true := by
      simp [hT]
    rw [hmb]
    simp only [if_true]
    obtain ⟨body2, head1, rest1, h1, h2, h3, h4, h5⟩ :=
      retractTailRounded_snoc_shape rnd dt (moveFrontRounded rnd dt head) init last
    rw [h1]
    refine ⟨_, head1, rest1, rfl, h2, by rw [h3, moveFrontRounded_direction], ?_, ?_⟩
    · rintro ⟨init2, last2, h, -, hle⟩
      obtain ⟨-, hl⟩ := List.append_inj' h rfl
      simp only [List.cons.injEq, and_true] at hl
      subst hl
      simp [hbody, h4 hle]
    · intro hno
      have hd : ¬ currentSegmentLengthRounded rnd last ≤ rnd (snakeMovespeed * dt) :=
        fun hle => hno ⟨init, last, rfl, hT, hle⟩
      simp [hbody, h5 hd]

/-- C3, amended, in binary32 arithmetic on `turnedSnake` with a request to move right and
`dt = 1/4`. -/
theorem moveSnake_reversal_witness :
    ∃ snake1 head1 rest1,
      moveSnakeRounded roundBinary32 (1 / 4)
          { turnedSnake with currentDirection := MOVING_RIGHT } = some snake1 ∧
      snake1.snakeBody = head1 :: rest1 ∧ head1.direction = MOVING_LEFT := by
  obtain ⟨snake1, head1, rest1, h1, h2, h3, -⟩ :=
    moveSnake_reversal roundBinary32 (1 / 4)
      { turnedSnake with currentDirection := MOVING_RIGHT }
      { frontCoord := (1 / 8, 1), backCoord := (1 / 8, -(1 / 8)), direction := MOVING_LEFT }
      [{ frontCoord := (1 / 4, 0), backCoord := (1 / 2, 0), direction := MOVING_UP }]
      rfl rfl (by simp)
  exact ⟨snake1, head1, rest1, h1, h2, h3⟩

/-! ## Invariants of the running game -/

/-- C1, as stated, fails one tick after the start: the tick asks to move left (which is
not the reverse of up) with `dt = 7/8`, and in the resulting body the back point of
segment `0` is `(0.125, -0.125)` while the front point of segment `1` is `(0.25, 0)`. -/
theorem connected_polyline_counterexample :
    runMoves initialSnake [(MOVING_LEFT, 7 / 8)] = some turnedSnake ∧
      MOVING_LEFT ≠ opposite MOVING_UP ∧
      ∃ a b, turnedSnake.snakeBody[0]? = some a ∧ turnedSnake.snakeBody[1]? = some b ∧
        a.backCoord = ((1 / 8 : ℚ), (-(1 / 8) : ℚ)) ∧ b.frontCoord = ((1 / 4 : ℚ), (0 : ℚ)) ∧
        a.backCoord ≠ b.frontCoord := by
  refine ⟨turnedSnake_reached, by decide,
    { frontCoord := (1 / 8, 1), backCoord := (1 / 8, -(1 / 8)), direction := MOVING_LEFT },
    { frontCoord := (1 / 4, 0), backCoord := (1 / 2, 0), direction := MOVING_UP },
    rfl, rfl, rfl, rfl, ?_⟩
  norm_num

/-- C1, amended: every sequence of `moveSnake` ticks with `dt ≥ 0` from the initial snake
runs to the end (with any requested directions, reversals included), and in the state it
reaches, for every index `i` with `i + 1` below the number of segments, the back point of
segment `i` and the front point of segment `i + 1` differ by exactly `snakeRadius` on the
x axis and by exactly `snakeRadius` on the z axis. -/
theorem runMoves_joint_offsets (inputs : List (SnakeDirection × ℚ))
    (hdt : ∀ input ∈ inputs, 0 ≤ input.2) :
    ∃ snake, runMoves initialSnake inputs = some snake ∧
      ∀ (i : ℕ) (h : i + 1 < snake.snakeBody.length),
        |(snake.snakeBody.get ⟨i, Nat.lt_of_succ_lt h⟩).backCoord.1 -
            (snake.snakeBody.get ⟨i + 1, h⟩).frontCoord.1| = snakeRadius ∧
          |(snake.snakeBody.get ⟨i, Nat.lt_of_succ_lt h⟩).backCoord.2 -
            (snake.snakeBody.get ⟨i + 1, h⟩).frontCoord.2| = snakeRadius := by
  obtain ⟨snake, hrun, -, hchain⟩ :=
    runMoves_invariant inputs hdt initialSnake initialSnake_headLong
      (by simp [initialSnake])
  refine ⟨snake, hrun, ?_⟩
  intro i h
  exact (List.chain'_iff_get.mp hchain) i (by omega)

/-- C1, amended, for the single tick that turns left with `dt = 7/8`. -/
theorem runMoves_joint_offsets_witness :
    ∃ snake, runMoves initialSnake [(MOVING_LEFT, 7 / 8)] = some snake ∧
      ∀ (i : ℕ) (h : i + 1 < snake.snakeBody.length),
        |(snake.snakeBody.get ⟨i, Nat.lt_of_succ_lt h⟩).backCoord.1 -
            (snake.snakeBody.get ⟨i + 1, h⟩).frontCoord.1| = snakeRadius ∧
          |(snake.snakeBody.get ⟨i, Nat.lt_of_succ_lt h⟩).backCoord.2 -
            (snake.snakeBody.get ⟨i + 1, h⟩).frontCoord.2| = snakeRadius :=
  runMoves_joint_offsets [(MOVING_LEFT, 7 / 8)] (by simp; norm_num)

/-- C4, as stated, fails after two frames moving up, the first with `dt = 3/4` and the
second with `dt = 1/8` (one food item at `(2, 2)`, far from the snake): the traversed
length is `5/4`, the target length is `1`, and `5/4 > 1 + snakeMovespeed * 1/8`. -/
theorem length_pinning_counterexample :
    ∃ snake,
      runFrames initialSnake
          [(MOVING_UP, 3 / 4, [(2, 2)]), (MOVING_UP, 1 / 8, [(2, 2)])] = some snake ∧
        getSnakeLength snake = 5 / 4 ∧ snake.length = 1 ∧
        ¬ (getSnakeLength snake ≤ snake.length + snakeMovespeed * (1 / 8)) := by
  have h1 : frameTick initialSnake (MOVING_UP, 3 / 4, [(2, 2)]) =
      some
        { snakeBody :=
            [{ frontCoord := (-(3 / 4), 0), backCoord := (1 / 2, 0), direction := MOVING_UP }]
          currentDirection := MOVING_UP
          length := 1 } := by
    simp [frameTick, moveSnake, initialSnake, addSegment, handleMovement, handleCollisions,
      checkFoodCollision, inBox, getSnakeLength, addSegmentLength, getSegmentLength, moveFront,
      moveBackCoord, currentSegmentLength, snakeRadius, snakeMovespeed, abs_eq_max_neg, max_def]
    norm_num
  have h2 : frameTick
      { snakeBody :=
          [{ frontCoord := (-(3 / 4), 0), backCoord := (1 / 2, 0), direction := MOVING_UP }]
        currentDirection := MOVING_UP
        length := 1 } (MOVING_UP, 1 / 8, [(2, 2)]) =
      some
        { snakeBody :=
            [{ frontCoord := (-(7 / 8), 0), backCoord := (3 / 8, 0), direction := MOVING_UP }]
          currentDirection := MOVING_UP
          length := 1 } := by
    simp [frameTick, moveSnake, addSegment, handleMovement, handleCollisions,
      checkFoodCollision, inBox, getSnakeLength, addSegmentLength, getSegmentLength, moveFront,
      moveBackCoord, currentSegmentLength, snakeRadius, snakeMovespeed, abs_eq_max_neg, max_def]
    norm_num
  refine ⟨{ snakeBody :=
              [{ frontCoord := (-(7 / 8), 0), backCoord := (3 / 8, 0), direction := MOVING_UP }]
            currentDirection := MOVING_UP
            length := 1 },
    by simp only [runFrames, h1, h2, Option.some_bind], ?_, rfl, ?_⟩ <;>
    norm_num [getSnakeLength, addSegmentLength, getSegmentLength, snakeMovespeed,
      abs_eq_max_neg, max_def]

/-- C4, amended: when every frame has the same `dt ≥ 0`, every sequence of frames
(`moveSnake` with any requested direction, followed by `handleCollisions` against any food
container) from the initial snake runs to the end, and in the state it reaches the
traversed length is at most the target length plus `snakeMovespeed * dt`. -/
theorem runFrames_length_pinned (dt : ℚ) (hdt : 0 ≤ dt)
    (inputs : List (SnakeDirection × List Coord)) :
    ∃ snake,
      runFrames initialSnake (inputs.map (fun input => (input.1, dt, input.2))) = some snake ∧
      getSnakeLength snake ≤ snake.length + snakeMovespeed * dt := by
  have hd : 0 ≤ snakeMovespeed * dt := by simp [snakeMovespeed]; exact hdt
  obtain ⟨snake, hrun, -, hT⟩ :=
    runFrames_steady dt hdt inputs initialSnake (initialSnake_steady _)
      (by rw [initialSnake_bodyLength]; simp only [initialSnake]; linarith)
  exact ⟨snake, hrun, by rw [getSnakeLength_eq]; exact hT⟩

/-- C4, amended, for two frames of `dt = 1/8` each, the first turning left. -/
theorem runFrames_length_pinned_witness :
    ∃ snake,
      runFrames initialSnake
          ([(MOVING_LEFT, [(2, 2)]), (MOVING_LEFT, [])].map
            (fun input => (input.1, 1 / 8, input.2))) = some snake ∧
      getSnakeLength snake ≤ snake.length + snakeMovespeed * (1 / 8) :=
  runFrames_length_pinned (1 / 8) (by norm_num) [(MOVING_LEFT, [(2, 2)]), (MOVING_LEFT, [])]

/-! ## Collisions and food (`handleCollisions`) -/

theorem handleCollisions_cons (snake : Snake) (foodContainer : List Coord)
    (head : SnakeSegment) (rest : List SnakeSegment) (hbody : snake.snakeBody = head :: rest) :
    handleCollisions snake foodContainer =
      some
        { shouldClose := platformCollision head || selfCollision snake.snakeBody head
          snake :=
            match foodContainer.findIdx? (fun foodCoords => checkFoodCollision head foodCoords) with
            | some _ => { snake with length := snake.length + 2 * snakeRadius }
            | none => snake
          foodContainer :=
            match foodContainer.findIdx? (fun foodCoords => checkFoodCollision head foodCoords) with
            | some i => foodContainer.eraseIdx i
            | none => foodContainer } := by
  unfold handleCollisions platformCollision selfCollision
  simp only [hbody, List.getElem?_cons_zero, Option.bind_eq_bind, Option.some_bind]
  split <;> rfl

theorem platformCollision_iff (head : SnakeSegment) :
    platformCollision head = true ↔
      head.frontCoord.1 > 5 / 2 ∨ head.frontCoord.1 < -(5 / 2) ∨
        head.frontCoord.2 > 5 / 2 ∨ head.frontCoord.2 < -(5 / 2) := by
  have e1 : platformPositionX + platformScale * (1 / 2) = 5 / 2 := by
    norm_num [platformPositionX, platformScale]
  have e2 : platformPositionX - platformScale * (1 / 2) = -(5 / 2) := by
    norm_num [platformPositionX, platformScale]
  have e3 : platformPositionZ + platformScale * (1 / 2) = 5 / 2 := by
    norm_num [platformPositionZ, platformScale]
  have e4 : platformPositionZ - platformScale * (1 / 2) = -(5 / 2) := by
    norm_num [platformPositionZ, platformScale]
  unfold platformCollision
  rw [e1, e2, e3, e4]
  simp only [Bool.or_eq_true, decide_eq_true_eq]
  tauto

theorem checkCollision_iff (head segment : SnakeSegment) :
    checkCollision head segment = true ↔
      strictlyInside (setBoundsFromSegment segment) (leadingCorners head).1 ∨
        strictlyInside (setBoundsFromSegment segment) (leadingCorners head).2 := by
  obtain ⟨front, back, dir⟩ := head
  cases dir <;>
    simp [checkCollision, inBox, strictlyInside, leadingCorners]

theorem selfCollision_iff (snakeBody : List SnakeSegment) (head : SnakeSegment) :
    selfCollision snakeBody head = true ↔
      ∃ i segment, 2 ≤ i ∧ snakeBody[i]? = some segment ∧
        (strictlyInside (setBoundsFromSegment segment) (leadingCorners head).1 ∨
          strictlyInside (setBoundsFromSegment segment) (leadingCorners head).2) := by
  unfold selfCollision
  rw [List.any_eq_true]
  constructor
  · rintro ⟨segment, hmem, hhit⟩
    obtain ⟨j, hj⟩ := List.mem_iff_getElem?.mp hmem
    rw [List.getElem?_drop] at hj
    exact ⟨2 + j, segment, by omega, hj, (checkCollision_iff head segment).mp hhit⟩
  · rintro ⟨i, segment, hi, hget, hhit⟩
    refine ⟨segment, ?_, (checkCollision_iff head segment).mpr hhit⟩
    apply List.mem_iff_getElem?.mpr
    refine ⟨i - 2, ?_⟩
    rw [List.getElem?_drop]
    have e : 2 + (i - 2) = i := by omega
    rw [e]
    exact hget

/-- C11: for a forward-oriented segment, the box of `setBoundsFromSegment` runs along the
segment's own axis from the smaller to the larger of the front and back coordinates, so
that its length there is `getSegmentLength`, and across it from `c - snakeRadius` to
`c + snakeRadius`, where `c` is the front's coordinate on that axis, so that its width is
`2 * snakeRadius`. -/
theorem setBoundsFromSegment_forward (segment : SnakeSegment)
    (hfwd : forwardOriented segment) :
    (segment.direction = MOVING_UP ∨ segment.direction = MOVING_DOWN →
        (setBoundsFromSegment segment).1 = min segment.frontCoord.1 segment.backCoord.1 ∧
        (setBoundsFromSegment segment).2.1 = max segment.frontCoord.1 segment.backCoord.1 ∧
        (setBoundsFromSegment segment).2.1 - (setBoundsFromSegment segment).1 =
          getSegmentLength segment true ∧
        (setBoundsFromSegment segment).2.2.1 = segment.frontCoord.2 - snakeRadius ∧
        (setBoundsFromSegment segment).2.2.2 = segment.frontCoord.2 + snakeRadius ∧
        (setBoundsFromSegment segment).2.2.2 - (setBoundsFromSegment segment).2.2.1 =
          2 * snakeRadius) ∧
      (segment.direction = MOVING_LEFT ∨ segment.direction = MOVING_RIGHT →
        (setBoundsFromSegment segment).2.2.1 = min segment.frontCoord.2 segment.backCoord.2 ∧
        (setBoundsFromSegment segment).2.2.2 = max segment.frontCoord.2 segment.backCoord.2 ∧
        (setBoundsFromSegment segment).2.2.2 - (setBoundsFromSegment segment).2.2.1 =
          getSegmentLength segment false ∧
        (setBoundsFromSegment segment).1 = segment.frontCoord.1 - snakeRadius ∧
        (setBoundsFromSegment segment).2.1 = segment.frontCoord.1 + snakeRadius ∧
        (setBoundsFromSegment segment).2.1 - (setBoundsFromSegment segment).1 =
          2 * snakeRadius) := by
  obtain ⟨front, back, dir⟩ := segment
  cases dir <;> simp only [forwardOriented] at hfwd <;>
    simp [setBoundsFromSegment, getSegmentLength, hfwd]
  · refine ⟨?_, by ring⟩
    rw [abs_of_nonpos (by linarith)]; ring
  · refine ⟨?_, by ring⟩
    rw [abs_of_nonneg (by linarith)]
  · refine ⟨?_, by ring⟩
    rw [abs_of_nonneg (by linarith)]
  · refine ⟨?_, by ring⟩
    rw [abs_of_nonpos (by linarith)]; ring

/-- C11 on the segment of the initial snake. -/
theorem setBoundsFromSegment_forward_witness :
    (setBoundsFromSegment
          { frontCoord := (0, 0), backCoord := (1 / 2, 0), direction := MOVING_UP }).2.1 -
        (setBoundsFromSegment
          { frontCoord := (0, 0), backCoord := (1 / 2, 0), direction := MOVING_UP }).1 =
        getSegmentLength
          { frontCoord := (0, 0), backCoord := (1 / 2, 0), direction := MOVING_UP } true ∧
      (setBoundsFromSegment
          { frontCoord := (0, 0), backCoord := (1 / 2, 0), direction := MOVING_UP }).2.2.2 -
        (setBoundsFromSegment
          { frontCoord := (0, 0), backCoord := (1 / 2, 0), direction := MOVING_UP }).2.2.1 =
        2 * snakeRadius :=
  have h := (setBoundsFromSegment_forward
    { frontCoord := (0, 0), backCoord := (1 / 2, 0), direction := MOVING_UP }
    (by simp [forwardOriented])).1 (Or.inl rfl)
  ⟨h.2.2.1, h.2.2.2.2.2⟩

/-- C12: on a non-empty body `handleCollisions` returns, and its platform test asks the
window to close exactly when the front point `(x, z)` of the head has `x > 2.5` or
`x < -2.5` or `z > 2.5` or `z < -2.5`.  The close request of the outcome is the platform
test or the self-collision loop, so it is made whenever the platform test fires, and for a
body of at most two segments exactly then.  A front point at `2.5` or `-2.5` on both axes
is no collision, and a head at `(4.9, 0)` is one. -/
theorem handleCollisions_wall (snake : Snake) (foodContainer : List Coord)
    (head : SnakeSegment) (rest : List SnakeSegment) (hbody : snake.snakeBody = head :: rest) :
    ∃ outcome, handleCollisions snake foodContainer = some outcome ∧
      outcome.shouldClose = (platformCollision head || selfCollision snake.snakeBody head) ∧
      (platformCollision head = true ↔
        head.frontCoord.1 > 5 / 2 ∨ head.frontCoord.1 < -(5 / 2) ∨
          head.frontCoord.2 > 5 / 2 ∨ head.frontCoord.2 < -(5 / 2)) ∧
      (head.frontCoord.1 > 5 / 2 ∨ head.frontCoord.1 < -(5 / 2) ∨
          head.frontCoord.2 > 5 / 2 ∨ head.frontCoord.2 < -(5 / 2) →
        outcome.shouldClose = true) ∧
      (snake.snakeBody.length ≤ 2 →
        (outcome.shouldClose = true ↔
          head.frontCoord.1 > 5 / 2 ∨ head.frontCoord.1 < -(5 / 2) ∨
            head.frontCoord.2 > 5 / 2 ∨ head.frontCoord.2 < -(5 / 2))) ∧
      ((head.frontCoord.1 = 5 / 2 ∨ head.frontCoord.1 = -(5 / 2)) →
        (head.frontCoord.2 = 5 / 2 ∨ head.frontCoord.2 = -(5 / 2)) →
        platformCollision head = false) ∧
      (head.frontCoord = (49 / 10, 0) → platformCollision head = true) ∧
      platformScale / 2 = 5 / 2 := by
  have hiff := platformCollision_iff head
  have hshort : snake.snakeBody.length ≤ 2 → selfCollision snake.snakeBody head = false := by
    intro hlen
    unfold selfCollision
    rw [List.drop_of_length_le hlen]
    rfl
  refine ⟨_, handleCollisions_cons snake foodContainer head rest hbody, rfl, hiff, ?_, ?_, ?_,
    ?_, by norm_num [platformScale]⟩
  · intro h
    simp only [hiff.mpr h, Bool.true_or]
  · intro hlen
    simp only [hshort hlen, Bool.or_false]
    exact hiff
  · intro hx hz
    rw [← Bool.not_eq_true, hiff]
    rcases hx with hx | hx <;> rcases hz with hz | hz <;> rw [hx, hz] <;> norm_num
  · intro h
    rw [hiff, h]
    norm_num

/-- C12 for a head at `(4.9, 0)` moving down. -/
theorem handleCollisions_wall_witness :
    ∃ outcome,
      handleCollisions
          { snakeBody :=
              [{ frontCoord := (49 / 10, 0), backCoord := (1 / 2, 0), direction := MOVING_DOWN }]
            currentDirection := MOVING_DOWN
            length := 1 } [] = some outcome ∧
        outcome.shouldClose = true := by
  obtain ⟨outcome, h1, -, -, h4, -⟩ :=
    handleCollisions_wall
      { snakeBody :=
          [{ frontCoord := (49 / 10, 0), backCoord := (1 / 2, 0), direction := MOVING_DOWN }]
        currentDirection := MOVING_DOWN
        length := 1 } []
      { frontCoord := (49 / 10, 0), backCoord := (1 / 2, 0), direction := MOVING_DOWN } [] rfl
  exact ⟨outcome, h1, h4 (Or.inl (by norm_num))⟩

/-- C13: on a non-empty body the close request of `handleCollisions` is the platform test
or the self-collision loop, and the loop fires exactly when some segment of index `i ≥ 2`
has one of the two leading corners of the head strictly inside its
`setBoundsFromSegment` box.  Hence replacing the segment of index `1` does not change the
result, and a body of one or two segments never collides with itself. -/
theorem handleCollisions_self (snake : Snake) (foodContainer : List Coord)
    (head : SnakeSegment) (rest : List SnakeSegment) (hbody : snake.snakeBody = head :: rest) :
    ∃ outcome, handleCollisions snake foodContainer = some outcome ∧
      outcome.shouldClose = (platformCollision head || selfCollision snake.snakeBody head) ∧
      (selfCollision snake.snakeBody head = true ↔
        ∃ i segment, 2 ≤ i ∧ snake.snakeBody[i]? = some segment ∧
          (strictlyInside (setBoundsFromSegment segment) (leadingCorners head).1 ∨
            strictlyInside (setBoundsFromSegment segment) (leadingCorners head).2)) ∧
      (∀ second other tail, rest = second :: tail →
        selfCollision (head :: other :: tail) head = selfCollision snake.snakeBody head) ∧
      (snake.snakeBody.length ≤ 2 → selfCollision snake.snakeBody head = false) := by
  refine ⟨_, handleCollisions_cons snake foodContainer head rest hbody, rfl,
    selfCollision_iff snake.snakeBody head, ?_, ?_⟩
  · intro second other tail hrest
    rw [hbody, hrest]
    rfl
  · intro hlen
    unfold selfCollision
    rw [List.drop_of_length_le hlen]
    rfl

/-- C13 on the two-segment snake `turnedSnake`. -/
theorem handleCollisions_self_witness :
    ∃ outcome, handleCollisions turnedSnake [] = some outcome ∧
      selfCollision turnedSnake.snakeBody
        { frontCoord := (1 / 8, 1), backCoord := (1 / 8, -(1 / 8)), direction := MOVING_LEFT } =
        false := by
  obtain ⟨outcome, h1, -, -, -, h5⟩ :=
    handleCollisions_self turnedSnake []
      { frontCoord := (1 / 8, 1), backCoord := (1 / 8, -(1 / 8)), direction := MOVING_LEFT }
      [{ frontCoord := (1 / 4, 0), backCoord := (1 / 2, 0), direction := MOVING_UP }] rfl
  exact ⟨outcome, h1, h5 (by simp [turnedSnake])⟩

/-- C14: on a non-empty body `handleCollisions` returns with the body unchanged and the
target length not decreased.  If the food item of index `i` collides with the head and no
item of smaller index does, the food container loses exactly that item, the others keeping
their order, and the target length grows by `2 * snakeRadius = 0.25`; if no item collides
with the head, the food container and the target length are unchanged. -/
theorem handleCollisions_food (snake : Snake) (foodContainer : List Coord)
    (head : SnakeSegment) (rest : List SnakeSegment) (hbody : snake.snakeBody = head :: rest) :
    ∃ outcome, handleCollisions snake foodContainer = some outcome ∧
      outcome.snake.snakeBody = snake.snakeBody ∧
      snake.length ≤ outcome.snake.length ∧
      (∀ (i : ℕ) (item : Coord), foodContainer[i]? = some item →
        checkFoodCollision head item = true →
        (∀ (j : ℕ) (other : Coord), j < i → foodContainer[j]? = some other →
          checkFoodCollision head other = false) →
        outcome.foodContainer = foodContainer.take i ++ foodContainer.drop (i + 1) ∧
          outcome.snake.length = snake.length + 2 * snakeRadius ∧
          2 * snakeRadius = 1 / 4) ∧
      ((∀ item ∈ foodContainer, checkFoodCollision head item = false) →
        outcome.foodContainer = foodContainer ∧ outcome.snake.length = snake.length) := by
  have hr := snakeRadius_pos
  refine ⟨_, handleCollisions_cons snake foodContainer head rest hbody, ?_, ?_, ?_, ?_⟩
  · simp only
    split <;> rfl
  · simp only
    split
    · simp only; linarith
    · exact le_rfl
  · intro i item hget hhit hfirst
    have hfind : foodContainer.findIdx? (fun foodCoords => checkFoodCollision head foodCoords) =
        some i := by
      rw [List.findIdx?_eq_some_iff_getElem]
      obtain ⟨hlt, hitem⟩ := List.getElem?_eq_some_iff.mp hget
      refine ⟨hlt, by rw [hitem]; exact hhit, ?_⟩
      intro j hji
      have := hfirst j foodContainer[j] hji (List.getElem?_eq_getElem _)
      simp [this]
    simp only [hfind]
    refine ⟨List.eraseIdx_eq_take_drop_succ foodContainer i, ?_⟩
    norm_num [snakeRadius]
  · intro hnone
    have hfind : foodContainer.findIdx? (fun foodCoords => checkFoodCollision head foodCoords) =
        none := by
      rw [List.findIdx?_eq_none_iff]
      exact hnone
    simp [hfind]

/-- C14 for the initial snake and two food items, of which the second one, at
`(0, 1/16)`, is the first to collide with the head. -/
theorem handleCollisions_food_witness :
    ∃ outcome, handleCollisions initialSnake [(2, 2), (0, 1 / 16)] = some outcome ∧
      outcome.snake.snakeBody = initialSnake.snakeBody ∧
      outcome.foodContainer = [(2, 2)] ∧
      outcome.snake.length = initialSnake.length + 2 * snakeRadius := by
  obtain ⟨outcome, h1, h2, -, h4, -⟩ :=
    handleCollisions_food initialSnake [(2, 2), (0, 1 / 16)]
      { frontCoord := (0, 0), backCoord := (1 / 2, 0), direction := MOVING_UP } [] rfl
  have h := h4 1 (0, 1 / 16) rfl
    (by simp [checkFoodCollision, inBox, snakeRadius]; norm_num)
    (by
      intro j other hj hget
      have hj0 : j = 0 := by omega
      subst hj0
      simp only [List.getElem?_cons_zero, Option.some.injEq] at hget
      subst hget
      simp [checkFoodCollision, inBox, snakeRadius]
      norm_num)
  exact ⟨outcome, h1, h2, h.1, h.2.1⟩

/-! ## Spawning food (`addFood`) -/

/-- C17: for a raw output `0 ≤ sample ≤ randomMax` of the generator (`randomMax > 0`), the
coordinate computed by `addFood` is at most `platformScale / 2 - snakeRadius = 2.375` in
absolute value, so the food box around it stays within `[-2.5, 2.5]`. -/
theorem scaleSample_bounds (randomMax sample : ℚ) (hmax : 0 < randomMax)
    (h0 : 0 ≤ sample) (h1 : sample ≤ randomMax) :
    |scaleSample randomMax sample| ≤ platformScale / 2 - snakeRadius ∧
      platformScale / 2 - snakeRadius = 19 / 8 ∧
      -(platformScale / 2) ≤ scaleSample randomMax sample - snakeRadius ∧
      scaleSample randomMax sample + snakeRadius ≤ platformScale / 2 ∧
      platformScale / 2 = 5 / 2 := by
  have ht0 : 0 ≤ sample / randomMax := div_nonneg h0 (le_of_lt hmax)
  have ht1 : sample / randomMax ≤ 1 := (div_le_one hmax).mpr h1
  have hs : scaleSample randomMax sample =
      (5 * (sample / randomMax) - 5 / 2) * (19 / 20) := by
    simp only [scaleSample, platformScale, snakeRadius]
    norm_num
  rw [hs]
  simp only [platformScale, snakeRadius]
  refine ⟨?_, by norm_num, ?_, ?_, by norm_num⟩
  · rw [abs_le]
    constructor <;> nlinarith
  · nlinarith
  · nlinarith

/-- C17 for the generator `std::minstd_rand` and the draw `1073741823`. -/
theorem scaleSample_bounds_witness :
    |scaleSample minstdMax 1073741823| ≤ platformScale / 2 - snakeRadius :=
  (scaleSample_bounds minstdMax 1073741823 (by norm_num [minstdMax]) (by norm_num)
    (by norm_num [minstdMax])).1

/-! ## Axis alignment -/

theorem moveSnake_some_shape (dt : ℚ) (snake : Snake) (head : SnakeSegment)
    (rest : List SnakeSegment) (hbody : snake.snakeBody = head :: rest) (snake1 : Snake)
    (hmove : moveSnake dt snake = some snake1) :
    ∃ head0 rest0,
      ((head0 = head ∧ rest0 = rest) ∨
        (perpendicular snake.currentDirection head.direction ∧
          head0 = turnSegment head.direction snake.currentDirection head.frontCoord ∧
          rest0 = shortenFront head :: rest)) ∧
      snake1.length = snake.length ∧ snake1.currentDirection = head0.direction ∧
      (snake1.snakeBody = moveFront dt head0 :: rest0 ∨
        (∃ pre tail, moveFront dt head0 :: rest0 = pre ++ [tail] ∧
          snake1.snakeBody = pre ++ [moveBackCoord (snakeMovespeed * dt) tail]) ∨
        (∃ pre last tail, moveFront dt head0 :: rest0 = pre ++ [last, tail] ∧
          snake1.snakeBody =
            pre ++ [moveBackCoord (snakeMovespeed * dt - currentSegmentLength tail) last])) := by
  obtain ⟨head0, rest0, hadd, hshape⟩ := addSegment_shape snake head rest hbody
  rw [moveSnake_eq, hadd, Option.some_bind, handleMovement_cons dt _ _ head0 rest0 rfl] at hmove
  refine ⟨head0, rest0, hshape, ?_⟩
  by_cases hT : getSnakeLength snake < snake.length
  · simp only [hT, decide_True, Bool.not_true, Bool.false_eq_true, if_false,
      Option.some.injEq] at hmove
    subst hmove
    exact ⟨rfl, rfl, Or.inl rfl⟩
  · simp only [hT, decide_False, Bool.not_false, if_true] at hmove
    rcases retractTail_cases (snakeMovespeed * dt) (moveFront dt head0 :: rest0) (by simp) with
      ⟨pre, tail, h1, -, h3⟩ | ⟨pre, last, tail, h1, -, h3⟩ | ⟨tail, -, -, h3⟩
    · rw [h3] at hmove
      simp only [Option.map_some', Option.some.injEq] at hmove
      subst hmove
      exact ⟨rfl, rfl, Or.inr (Or.inl ⟨pre, tail, h1, rfl⟩)⟩
    · rw [h3] at hmove
      simp only [Option.map_some', Option.some.injEq] at hmove
      subst hmove
      exact ⟨rfl, rfl, Or.inr (Or.inr ⟨pre, last, tail, h1, rfl⟩)⟩
    · rw [h3] at hmove
      simp at hmove

theorem turnSegment_aligned (old new : SnakeDirection) (headCoord : Coord) :
    alignedSegment (turnSegment old new headCoord) := by
  cases new <;> simp [alignedSegment, turnSegment, unitVector]

theorem shortenFront_aligned (head : SnakeSegment) (h : alignedSegment head) :
    alignedSegment (shortenFront head) := by
  obtain ⟨front, back, dir⟩ := head
  cases dir <;> simp only [alignedSegment] at h <;>
    simp [alignedSegment, shortenFront, unitVector, h]

theorem moveFront_aligned (dt : ℚ) (head : SnakeSegment) (h : alignedSegment head) :
    alignedSegment (moveFront dt head) := by
  obtain ⟨front, back, dir⟩ := head
  cases dir <;> simp only [alignedSegment] at h <;> simp [alignedSegment, moveFront, h]

theorem moveBackCoord_aligned (e : ℚ) (last : SnakeSegment) (h : alignedSegment last) :
    alignedSegment (moveBackCoord e last) := by
  obtain ⟨front, back, dir⟩ := last
  cases dir <;> simp only [alignedSegment] at h <;> simp [alignedSegment, moveBackCoord, h]

theorem moveSnake_aligned (dt : ℚ) (snake : Snake)
    (hal : ∀ segment ∈ snake.snakeBody, alignedSegment segment) (snake1 : Snake)
    (hmove : moveSnake dt snake = some snake1) :
    ∀ segment ∈ snake1.snakeBody, alignedSegment segment := by
  cases hbody : snake.snakeBody with
  | nil =>
      rw [moveSnake_eq, addSegment_nil snake hbody] at hmove
      simp at hmove
  | cons head rest =>
      rw [hbody] at hal
      obtain ⟨head0, rest0, hshape, -, -, hcases⟩ :=
        moveSnake_some_shape dt snake head rest hbody snake1 hmove
      have h0 : ∀ segment ∈ head0 :: rest0, alignedSegment segment := by
        rcases hshape with ⟨h1, h2⟩ | ⟨-, h1, h2⟩
        · rw [h1, h2]; exact hal
        · rw [h1, h2]
          intro segment hseg
          simp only [List.mem_cons] at hseg
          rcases hseg with h | h | h
          · rw [h]; exact turnSegment_aligned _ _ _
          · rw [h]; exact shortenFront_aligned head (hal head (by simp))
          · exact hal segment (by simp [h])
      have h1 : ∀ segment ∈ moveFront dt head0 :: rest0, alignedSegment segment := by
        intro segment hseg
        rcases List.mem_cons.mp hseg with h | h
        · rw [h]; exact moveFront_aligned dt head0 (h0 head0 (by simp))
        · exact h0 segment (by simp [h])
      rcases hcases with h | ⟨pre, tail, e1, e2⟩ | ⟨pre, last, tail, e1, e2⟩
      · rw [h]; exact h1
      · rw [e2]
        rw [e1] at h1
        intro segment hseg
        rcases List.mem_append.mp hseg with h | h
        · exact h1 segment (by simp [h])
        · simp only [List.mem_singleton] at h
          rw [h]
          exact moveBackCoord_aligned _ tail (h1 tail (by simp))
      · rw [e2]
        rw [e1] at h1
        intro segment hseg
        rcases List.mem_append.mp hseg with h | h
        · exact h1 segment (by simp [h])
        · simp only [List.mem_singleton] at h
          rw [h]
          exact moveBackCoord_aligned _ last (h1 last (by simp))

theorem initialSnake_aligned : ∀ segment ∈ initialSnake.snakeBody, alignedSegment segment := by
  intro segment hseg
  simp only [initialSnake, List.mem_singleton] at hseg
  subst hseg
  simp [alignedSegment]

theorem runMoves_aligned (inputs : List (SnakeDirection × ℚ))
    (hdt : ∀ input ∈ inputs, 0 ≤ input.2) (snake : Snake)
    (hhead : headLong snake.snakeBody)
    (hal : ∀ segment ∈ snake.snakeBody, alignedSegment segment) :
    ∃ snake1, runMoves snake inputs = some snake1 ∧ headLong snake1.snakeBody ∧
      ∀ segment ∈ snake1.snakeBody, alignedSegment segment := by
  induction inputs generalizing snake with
  | nil => exact ⟨snake, rfl, hhead, hal⟩
  | cons input rest ih =>
      have h0 : 0 ≤ input.2 := hdt input (by simp)
      obtain ⟨snake1, hstep, hhead1, -⟩ :=
        moveSnake_headLong input.2 h0 { snake with currentDirection := input.1 } hhead
      have hal1 := moveSnake_aligned input.2 { snake with currentDirection := input.1 } hal
        snake1 hstep
      obtain ⟨snake2, hrun, hhead2, hal2⟩ :=
        ih (fun x hx => hdt x (by simp [hx])) snake1 hhead1 hal1
      refine ⟨snake2, ?_, hhead2, hal2⟩
      simp only [runMoves, moveTick, hstep, Option.some_bind]
      exact hrun

theorem alignedSegment_iff (segment : SnakeSegment) :
    alignedSegment segment ↔
      (segment.direction = MOVING_UP ∨ segment.direction = MOVING_DOWN →
          segment.frontCoord.2 = segment.backCoord.2) ∧
        (segment.direction = MOVING_LEFT ∨ segment.direction = MOVING_RIGHT →
          segment.frontCoord.1 = segment.backCoord.1) := by
  obtain ⟨front, back, dir⟩ := segment
  cases dir <;> simp [alignedSegment]

theorem moveSnake_some_ne_nil (dt : ℚ) (snake snake1 : Snake)
    (hmove : moveSnake dt snake = some snake1) : snake1.snakeBody ≠ [] := by
  cases hbody : snake.snakeBody with
  | nil =>
      rw [moveSnake_eq, addSegment_nil snake hbody] at hmove
      simp at hmove
  | cons head rest =>
      obtain ⟨head0, rest0, -, -, -, hcases⟩ :=
        moveSnake_some_shape dt snake head rest hbody snake1 hmove
      rcases hcases with h | ⟨pre, tail, -, h⟩ | ⟨pre, last, tail, -, h⟩ <;> rw [h] <;> simp

/-- C18, as stated, fails in the initial state and after one tick moving up with
`dt = 1/4`: the only segment moves up, and its front and back differ in `x` (`0` against
`0.5`, then `-0.25` against `0.5`). -/
theorem segment_invariant_counterexample :
    runMoves initialSnake [] = some initialSnake ∧
      (∃ segment ∈ initialSnake.snakeBody,
        segment.direction = MOVING_UP ∧ segment.frontCoord.1 = 0 ∧ segment.backCoord.1 = 1 / 2 ∧
          segment.frontCoord.1 ≠ segment.backCoord.1) ∧
      runMoves initialSnake [(MOVING_UP, 1 / 4)] =
        some
          { snakeBody :=
              [{ frontCoord := (-(1 / 4), 0), backCoord := (1 / 2, 0), direction := MOVING_UP }]
            currentDirection := MOVING_UP
            length := 1 } ∧
      ((-(1 / 4) : ℚ) ≠ 1 / 2) := by
  refine ⟨rfl, ⟨_, List.mem_singleton.mpr rfl, rfl, rfl, rfl, ?_⟩, ?_, by norm_num⟩
  · norm_num
  · simp [runMoves, moveTick, moveSnake, initialSnake, addSegment, handleMovement,
      getSnakeLength, addSegmentLength, getSegmentLength, moveFront, snakeMovespeed,
      abs_eq_max_neg, max_def]
    norm_num

/-- C18, amended: every sequence of `moveSnake` ticks with `dt ≥ 0` from the initial snake
runs to the end, and in the state it reaches every segment moving up or down has
`front.z = back.z` and every segment moving left or right has `front.x = back.x`. -/
theorem runMoves_segments_aligned (inputs : List (SnakeDirection × ℚ))
    (hdt : ∀ input ∈ inputs, 0 ≤ input.2) :
    ∃ snake, runMoves initialSnake inputs = some snake ∧
      ∀ segment ∈ snake.snakeBody,
        (segment.direction = MOVING_UP ∨ segment.direction = MOVING_DOWN →
            segment.frontCoord.2 = segment.backCoord.2) ∧
          (segment.direction = MOVING_LEFT ∨ segment.direction = MOVING_RIGHT →
            segment.frontCoord.1 = segment.backCoord.1) := by
  obtain ⟨snake, hrun, -, hal⟩ :=
    runMoves_aligned inputs hdt initialSnake initialSnake_headLong initialSnake_aligned
  exact ⟨snake, hrun, fun segment hseg => (alignedSegment_iff segment).mp (hal segment hseg)⟩

/-- C18, amended, for the single tick that turns left with `dt = 7/8`. -/
theorem runMoves_segments_aligned_witness :
    ∃ snake, runMoves initialSnake [(MOVING_LEFT, 7 / 8)] = some snake ∧
      ∀ segment ∈ snake.snakeBody,
        (segment.direction = MOVING_UP ∨ segment.direction = MOVING_DOWN →
            segment.frontCoord.2 = segment.backCoord.2) ∧
          (segment.direction = MOVING_LEFT ∨ segment.direction = MOVING_RIGHT →
            segment.frontCoord.1 = segment.backCoord.1) :=
  runMoves_segments_aligned [(MOVING_LEFT, 7 / 8)] (by simp; norm_num)

/-- C19: the initial snake is aligned, and when `moveSnake` returns on an aligned snake,
which is when the tick leaves the body non-empty, the body it leaves is not empty and is
aligned again, for every requested direction and every `dt`. -/
theorem moveSnake_keeps_alignment (dt : ℚ) (snake snake1 : Snake)
    (hal : ∀ segment ∈ snake.snakeBody, alignedSegment segment)
    (hmove : moveSnake dt snake = some snake1) :
    (∀ segment ∈ initialSnake.snakeBody, alignedSegment segment) ∧
      snake1.snakeBody ≠ [] ∧
      ∀ segment ∈ snake1.snakeBody, alignedSegment segment :=
  ⟨initialSnake_aligned, moveSnake_some_ne_nil dt snake snake1 hmove,
    moveSnake_aligned dt snake hal snake1 hmove⟩

/-- C19 on `turnedSnake` with a request to move right and `dt = 1/4`, the tick that
drops the last segment: the segment that is left is aligned. -/
theorem moveSnake_keeps_alignment_witness :
    alignedSegment
      { frontCoord := (1 / 8, 5 / 4), backCoord := (1 / 8, -(1 / 8)), direction := MOVING_LEFT } :=
  (moveSnake_keeps_alignment (1 / 4) { turnedSnake with currentDirection := MOVING_RIGHT }
    { snakeBody :=
        [{ frontCoord := (1 / 8, 5 / 4), backCoord := (1 / 8, -(1 / 8)),
           direction := MOVING_LEFT }]
      currentDirection := MOVING_LEFT
      length := 1 }
    (by
      intro segment hseg
      simp only [turnedSnake, List.mem_cons, List.mem_singleton, List.not_mem_nil,
        or_false] at hseg
      rcases hseg with h | h <;> subst h <;> simp [alignedSegment])
    (by
      simp [moveSnake, turnedSnake, addSegment, handleMovement, getSnakeLength,
        addSegmentLength, getSegmentLength, moveFront, moveBackCoord, currentSegmentLength,
        snakeRadius, snakeMovespeed, abs_eq_max_neg, max_def]
      norm_num)).2.2
    { frontCoord := (1 / 8, 5 / 4), backCoord := (1 / 8, -(1 / 8)), direction := MOVING_LEFT }
    (List.mem_singleton.mpr rfl)

/-! ## Retraction conserves the traversed length -/

/-- C20: on a body whose segments are all forward-oriented, with
`d = snakeMovespeed * dt ≥ 0` and `l` the length of the last segment, `handleMovement` with
`moveBack = true` returns and leaves `getSnakeLength` unchanged, provided that either
`d < l`, or the body has at least two segments, `d ≥ l`, and the segment before the last
one has length at least `d - l`, measured after the head movement when that segment is
the head. -/
theorem handleMovement_conserves_length (dt : ℚ) (hdt : 0 ≤ dt) (snake : Snake)
    (init : List SnakeSegment) (last : SnakeSegment)
    (hbody : snake.snakeBody = init ++ [last])
    (hfwd : ∀ segment ∈ snake.snakeBody, forwardOriented segment)
    (hcase :
      snakeMovespeed * dt < currentSegmentLength last ∨
        ∃ init0 p, init = init0 ++ [p] ∧ currentSegmentLength last ≤ snakeMovespeed * dt ∧
          (init0 = [] →
            snakeMovespeed * dt - currentSegmentLength last ≤
              currentSegmentLength (moveFront dt p)) ∧
          (init0 ≠ [] →
            snakeMovespeed * dt - currentSegmentLength last ≤ currentSegmentLength p)) :
    ∃ snake1, handleMovement dt snake true = some snake1 ∧
      getSnakeLength snake1 = getSnakeLength snake := by
  have hd : 0 ≤ snakeMovespeed * dt := by simp [snakeMovespeed]; exact hdt
  rw [hbody] at hfwd
  cases init with
  | nil =>
      simp only [List.nil_append] at hbody hfwd
      have hl : snakeMovespeed * dt < currentSegmentLength last := by
        rcases hcase with h | ⟨init0, p, h, -⟩
        · exact h
        · simp at h
      have hm := moveFront_length dt last (hfwd last (by simp)) hdt
      have hkeep : snakeMovespeed * dt < currentSegmentLength (moveFront dt last) := by
        rw [hm.2]; linarith
      have hb := moveBackCoord_length (snakeMovespeed * dt) (moveFront dt last) hm.1
        (le_of_lt hkeep)
      have hr := retractTail_keep (snakeMovespeed * dt) [] (moveFront dt last) hkeep
      simp only [List.nil_append] at hr
      refine ⟨{ snake with
        snakeBody := [moveBackCoord (snakeMovespeed * dt) (moveFront dt last)] }, ?_, ?_⟩
      · rw [handleMovement_cons dt snake true last [] hbody]
        simp [hr]
      · simp only [getSnakeLength_eq, hbody, bodyLength_cons, bodyLength_nil, hb.2, hm.2]
        ring
  | cons head init1 =>
      rw [List.cons_append] at hbody hfwd
      obtain ⟨pre, p1, hpre, -, hpop, hkeep⟩ := handleMovement_snoc dt snake head init1 last hbody
      have hm := moveFront_length dt head (hfwd head (by simp)) hdt
      have hsum := congrArg bodyLength hpre
      rw [bodyLength_cons, bodyLength_append, hm.2] at hsum
      simp only [bodyLength_cons, bodyLength_nil, add_zero] at hsum
      have hT : getSnakeLength snake =
          currentSegmentLength head + bodyLength init1 + currentSegmentLength last := by
        rw [getSnakeLength_eq, hbody, bodyLength_cons, bodyLength_append]
        simp only [bodyLength_cons, bodyLength_nil, add_zero]
        ring
      rcases hcase with hl | ⟨init0, p, hinit, hle, hhead, hmid⟩
      · have hb := moveBackCoord_length (snakeMovespeed * dt) last (hfwd last (by simp))
          (le_of_lt hl)
        refine ⟨_, hkeep hl, ?_⟩
        rw [hT, getSnakeLength_eq]
        simp only [bodyLength_append, bodyLength_cons, bodyLength_nil, add_zero, hb.2]
        linarith
      · have hp1 : forwardOriented p1 ∧
            snakeMovespeed * dt - currentSegmentLength last ≤ currentSegmentLength p1 := by
          cases init0 with
          | nil =>
              simp only [List.nil_append, List.cons.injEq] at hinit
              obtain ⟨hh, hi⟩ := hinit
              subst hi
              have e : [moveFront dt head] = pre ++ [p1] := hpre
              have e2 : ([] : List SnakeSegment) ++ [moveFront dt head] = pre ++ [p1] := e
              obtain ⟨-, hq⟩ := List.append_inj' e2 rfl
              simp only [List.cons.injEq, and_true] at hq
              rw [← hq]
              exact ⟨hm.1, by rw [hh]; exact hhead rfl⟩
          | cons first init2 =>
              simp only [List.cons_append, List.cons.injEq] at hinit
              obtain ⟨hh, hi⟩ := hinit
              have e2 : (moveFront dt head :: init2) ++ [p] = pre ++ [p1] := by
                rw [← hpre, hi]; simp
              obtain ⟨-, hq⟩ := List.append_inj' e2 rfl
              simp only [List.cons.injEq, and_true] at hq
              rw [← hq]
              exact ⟨hfwd p (by rw [hi]; simp), hmid (by simp)⟩
        have hb := moveBackCoord_length (snakeMovespeed * dt - currentSegmentLength last) p1
          hp1.1 hp1.2
        refine ⟨_, hpop hle, ?_⟩
        rw [hT, getSnakeLength_eq]
        simp only [bodyLength_append, bodyLength_cons, bodyLength_nil, add_zero, hb.2]
        linarith

/-- C20 on `turnedSnake` with `dt = 1/4`, the case where the last segment is dropped. -/
theorem handleMovement_conserves_length_witness :
    ∃ snake1, handleMovement (1 / 4) turnedSnake true = some snake1 ∧
      getSnakeLength snake1 = getSnakeLength turnedSnake :=
  handleMovement_conserves_length (1 / 4) (by norm_num) turnedSnake
    [{ frontCoord := (1 / 8, 1), backCoord := (1 / 8, -(1 / 8)), direction := MOVING_LEFT }]
    { frontCoord := (1 / 4, 0), backCoord := (1 / 2, 0), direction := MOVING_UP } rfl
    (by
      intro segment hseg
      simp only [turnedSnake, List.mem_cons, List.mem_singleton, List.not_mem_nil,
        or_false] at hseg
      rcases hseg with h | h <;> subst h <;> simp [forwardOriented] <;> norm_num)
    (Or.inr
      ⟨[], { frontCoord := (1 / 8, 1), backCoord := (1 / 8, -(1 / 8)),
             direction := MOVING_LEFT }, rfl,
        by norm_num [currentSegmentLength, getSegmentLength, snakeMovespeed, abs_eq_max_neg,
          max_def],
        fun _ => by
          simp [currentSegmentLength, getSegmentLength, moveFront, snakeMovespeed,
            abs_eq_max_neg, max_def]
          norm_num,
        fun h => absurd rfl h⟩)

/-! ## The end of a tick -/

theorem snoc_head_direction (x : SnakeSegment) (xs pre : List SnakeSegment)
    (tail : SnakeSegment) (e : ℚ) (h : x :: xs = pre ++ [tail]) :
    ∃ head1 rest1, pre ++ [moveBackCoord e tail] = head1 :: rest1 ∧
      head1.direction = x.direction := by
  cases pre with
  | nil =>
      simp only [List.nil_append, List.cons.injEq] at h
      exact ⟨_, [], rfl, by rw [moveBackCoord_direction, h.1]⟩
  | cons first pre1 =>
      simp only [List.cons_append, List.cons.injEq] at h
      exact ⟨first, _, rfl, by rw [h.1]⟩

/-- C21: when `moveSnake` returns, which is when the tick leaves the body non-empty, the
body it leaves has a head and `currentDirection` equals the direction of that head, for
every value of `currentDirection` before the tick and every `dt`. -/
theorem moveSnake_no_pending_turn (dt : ℚ) (snake snake1 : Snake)
    (hmove : moveSnake dt snake = some snake1) :
    ∃ head1 rest1, snake1.snakeBody = head1 :: rest1 ∧
      snake1.currentDirection = head1.direction := by
  cases hbody : snake.snakeBody with
  | nil =>
      rw [moveSnake_eq, addSegment_nil snake hbody] at hmove
      simp at hmove
  | cons head rest =>
      obtain ⟨head0, rest0, -, -, hdir, hcases⟩ :=
        moveSnake_some_shape dt snake head rest hbody snake1 hmove
      rcases hcases with h | ⟨pre, tail, e1, e2⟩ | ⟨pre, last, tail, e1, e2⟩
      · exact ⟨_, _, h, by rw [hdir, moveFront_direction]⟩
      · obtain ⟨head1, rest1, h1, h2⟩ :=
          snoc_head_direction _ _ pre tail (snakeMovespeed * dt) e1
        exact ⟨head1, rest1, by rw [e2, h1], by rw [hdir, h2, moveFront_direction]⟩
      · have e3 : moveFront dt head0 :: rest0.dropLast = pre ++ [last] := by
          have := congrArg List.dropLast e1
          have e4 : pre ++ [last, tail] = (pre ++ [last]) ++ [tail] := by simp
          rw [e4, List.dropLast_concat] at this
          rw [← this]
          cases rest0 with
          | nil =>
              have hlen := congrArg List.length e1
              simp at hlen
          | cons second rest2 => simp
        obtain ⟨head1, rest1, h1, h2⟩ :=
          snoc_head_direction _ _ pre last
            (snakeMovespeed * dt - currentSegmentLength tail) e3
        exact ⟨head1, rest1, by rw [e2, h1], by rw [hdir, h2, moveFront_direction]⟩

/-- C21 on `turnedSnake` with a request to move right and `dt = 1/4`: the request is
reset to the direction of the head, left. -/
theorem moveSnake_no_pending_turn_witness :
    ∃ head1 rest1,
      [({ frontCoord := (1 / 8, 5 / 4), backCoord := (1 / 8, -(1 / 8)),
          direction := MOVING_LEFT } : SnakeSegment)] = head1 :: rest1 ∧
        MOVING_LEFT = head1.direction :=
  moveSnake_no_pending_turn (1 / 4) { turnedSnake with currentDirection := MOVING_RIGHT }
    { snakeBody :=
        [{ frontCoord := (1 / 8, 5 / 4), backCoord := (1 / 8, -(1 / 8)),
           direction := MOVING_LEFT }]
      currentDirection := MOVING_LEFT
      length := 1 }
    (by
      simp [moveSnake, turnedSnake, addSegment, handleMovement, getSnakeLength,
        addSegmentLength, getSegmentLength, moveFront, moveBackCoord, currentSegmentLength,
        snakeRadius, snakeMovespeed, abs_eq_max_neg, max_def]
      norm_num)

/-- C23: when the head moves up or down and the `z` coordinate of its front equals that of
a food item, or the head moves left or right and the `x` coordinate of its front equals
that of the food item, `checkFoodCollision` is false whatever the other coordinates are:
the two leading corners lie on the two edges of the food box across the head's direction,
and `inBox` is strict. -/
theorem checkFoodCollision_dead_centre (head : SnakeSegment) (foodCoords : Coord)
    (h :
      ((head.direction = MOVING_UP ∨ head.direction = MOVING_DOWN) ∧
          head.frontCoord.2 = foodCoords.2) ∨
        ((head.direction = MOVING_LEFT ∨ head.direction = MOVING_RIGHT) ∧
          head.frontCoord.1 = foodCoords.1)) :
    checkFoodCollision head foodCoords = false ∧
      (head.direction = MOVING_UP ∨ head.direction = MOVING_DOWN →
        (leadingCorners head).1.2 = (foodBox foodCoords).2.2.2 ∧
          (leadingCorners head).2.2 = (foodBox foodCoords).2.2.1) ∧
      (head.direction = MOVING_LEFT ∨ head.direction = MOVING_RIGHT →
        (leadingCorners head).1.1 = (foodBox foodCoords).2.1 ∧
          (leadingCorners head).2.1 = (foodBox foodCoords).1) := by
  obtain ⟨front, back, dir⟩ := head
  cases dir <;> simp only [reduceCtorEq, or_self, or_false, false_or, false_and, true_and,
    or_true, true_or] at h <;>
    simp [checkFoodCollision, inBox, leadingCorners, foodBox, h]

/-- C23 for the head of the initial snake and a food item at `(1/16, 0)`, whose box
contains the front point of the head. -/
theorem checkFoodCollision_dead_centre_witness :
    checkFoodCollision
        { frontCoord := (0, 0), backCoord := (1 / 2, 0), direction := MOVING_UP }
        (1 / 16, 0) = false :=
  (checkFoodCollision_dead_centre
    { frontCoord := (0, 0), backCoord := (1 / 2, 0), direction := MOVING_UP } (1 / 16, 0)
    (Or.inl ⟨Or.inl rfl, rfl⟩)).1

end SnakeGame
